import Mathlib

/-! The early-access signup service of vibecheck.

A shallow embedding of the server side of the repository
(`server/index.js`, `server/middleware/security.js`,
`server/middleware/validation.js`, `server/models/EarlyAccess.js`,
`server/routes/earlyAccess.js`), of the image trim of `src/TrimmedImage.jsx`
and of the submit handler of `src/App.jsx`, and the properties proved about
them.

JavaScript strings are sequences of UTF-16 code units, and regular expressions
without the `u` flag work on code units, so a string is a list of code units.
-/

namespace Vibecheck

/-! ## Strings -/

/-- One UTF-16 code unit. -/
abbrev CodeUnit := Nat

/-- A JavaScript string: its UTF-16 code units in order. -/
abbrev JSString := List CodeUnit

/-- The UTF-16 code units of one Unicode character (a surrogate pair above the BMP). -/
def charUnits (c : Char) : List CodeUnit :=
  if c.toNat < 65536 then [c.toNat]
  else [55296 + (c.toNat - 65536) / 1024, 56320 + (c.toNat - 65536) % 1024]

/-- The JavaScript string written by a literal. -/
def utf16 (s : String) : JSString :=
  s.toList.flatMap charUnits

/-- LineTerminator of ECMAScript: LF, CR, U+2028, U+2029. -/
def isLineTerminator (c : CodeUnit) : Bool :=
  c == 10 || c == 13 || c == 8232 || c == 8233

/-- WhiteSpace or LineTerminator of ECMAScript: what `String.prototype.trim` strips. -/
def isTrimmable (c : CodeUnit) : Bool :=
  c == 9 || c == 11 || c == 12 || c == 32 || c == 160 || c == 5760 ||
  (8192 ≤ c && c ≤ 8202) || c == 8239 || c == 8287 || c == 12288 || c == 65279 ||
  isLineTerminator c

/-- `String.prototype.trim`. -/
def trim (s : JSString) : JSString :=
  ((s.dropWhile isTrimmable).reverse.dropWhile isTrimmable).reverse

/-- Lower-casing of one ASCII code unit: `A`..`Z` go to `a`..`z`. -/
def asciiLowerUnit (c : CodeUnit) : CodeUnit :=
  if 65 ≤ c && c ≤ 90 then c + 32 else c

/-- `String.prototype.toLowerCase`: on a string of ASCII code units it maps
`A`..`Z` to `a`..`z`; on any other string it follows the Unicode case tables of
the runtime, taken as the parameter `unicodeLower`. -/
def toLowerCase (unicodeLower : JSString → JSString) (s : JSString) : JSString :=
  if s.all (fun c => c < 128) then s.map asciiLowerUnit else unicodeLower s

/-- The UTF-8 bytes of one code unit that is not part of a surrogate pair (a
lone surrogate is written as U+FFFD). -/
def utf8Unit (c : CodeUnit) : List Nat :=
  if c < 128 then [c]
  else if c < 2048 then [192 + c / 64, 128 + c % 64]
  else if 55296 ≤ c && c < 57344 then [239, 191, 189]
  else [224 + c / 4096, 128 + c / 64 % 64, 128 + c % 64]

/-- The UTF-8 bytes of the code point of a surrogate pair. -/
def utf8Pair (hi lo : CodeUnit) : List Nat :=
  [240 + (65536 + (hi - 55296) * 1024 + (lo - 56320)) / 262144,
    128 + (65536 + (hi - 55296) * 1024 + (lo - 56320)) / 4096 % 64,
    128 + (65536 + (hi - 55296) * 1024 + (lo - 56320)) / 64 % 64,
    128 + (65536 + (hi - 55296) * 1024 + (lo - 56320)) % 64]

/-- The UTF-8 encoding of a string, which is what bcrypt is given. -/
def utf8 : JSString → List Nat
  | [] => []
  | [c] => utf8Unit c
  | c :: d :: r =>
    if (55296 ≤ c && c < 56320) && (56320 ≤ d && d < 57344) then utf8Pair c d ++ utf8 r
    else utf8Unit c ++ utf8 (d :: r)

/-- The key bcrypt works on: it reads the first 72 bytes of its input and
ignores the rest. -/
def bcryptKey (data : JSString) : List Nat :=
  (utf8 data).take 72

/-! ## Regular expressions

A pattern is embedded as a backtracking matcher: applied to the text at the
current position it returns the rest of the text after every way of matching. -/

/-- A matcher returns every remainder the pattern can leave. -/
abbrev Matcher := JSString → List JSString

namespace Matcher

/-- A character class (or `.`): one code unit satisfying `p`. -/
def cls (p : CodeUnit → Bool) : Matcher
  | [] => []
  | c :: r => if p c then [r] else []

/-- A literal code unit. -/
def unit (u : CodeUnit) : Matcher := cls (fun c => c == u)

/-- The empty pattern. -/
def eps : Matcher := fun s => [s]

/-- Concatenation `ab`. -/
def seq (a b : Matcher) : Matcher := fun s => (a s).flatMap b

/-- A literal text. -/
def lit : JSString → Matcher
  | [] => eps
  | u :: w => seq (unit u) (lit w)

/-- The quantifier `{0,n}` (greedy: the longer matches come first). -/
def upTo (a : Matcher) : Nat → Matcher
  | 0, s => [s]
  | n + 1, s => (a s).flatMap (upTo a n) ++ [s]

/-- The quantifier `{n}`. -/
def exactly (a : Matcher) : Nat → Matcher
  | 0 => eps
  | n + 1 => seq a (exactly a n)

/-- The quantifier `*`: an iteration that matches consumes at least one code
unit, so the length of the text bounds the number of iterations. -/
def star (a : Matcher) : Matcher := fun s => upTo a s.length s

/-- The quantifier `+`. -/
def plus (a : Matcher) : Matcher := seq a (star a)

/-- The quantifier `{n,}`. -/
def atLeast (a : Matcher) (n : Nat) : Matcher := seq (exactly a n) (star a)

/-- The quantifier `?`. -/
def opt (a : Matcher) : Matcher := upTo a 1

/-- The assertion `$` (no `m` flag): only at the end of the text. -/
def eol : Matcher
  | [] => [[]]
  | _ :: _ => []

end Matcher

/-- A regular expression literal: whether it starts with `^`, and its body. -/
structure RegExp where
  anchored : Bool
  body : Matcher

/-- `RegExp.prototype.test`: a pattern starting with `^` is tried at the start
of the text only, any other pattern at every position. -/
def RegExp.test (re : RegExp) (s : JSString) : Bool :=
  if re.anchored then !(re.body s).isEmpty
  else s.tails.any (fun t => !(re.body t).isEmpty)

deriving instance DecidableEq for Except

/-! ## The validator (`server/middleware/validation.js`) -/

/-- The pattern `/(.)\1{4,}/`: group 1 takes one code unit matched by `.` (any
code unit but a line terminator), and the back-reference repeats it at least
four times. -/
def repeatedCharacters : RegExp where
  anchored := false
  body := fun s =>
    match s with
    | [] => []
    | c :: r =>
      if isLineTerminator c then []
      else Matcher.atLeast (Matcher.unit c) 4 r

/-- The pattern `/test@test/`. -/
def testEmails : RegExp where
  anchored := false
  body := Matcher.lit (utf16 "test@test")

/-- The pattern `/^[^@]+@[^.]+$/` (64 is `@`, 46 is `.`). -/
def missingTLD : RegExp where
  anchored := true
  body :=
    Matcher.seq (Matcher.plus (Matcher.cls (fun c => c != 64)))
      (Matcher.seq (Matcher.unit 64)
        (Matcher.seq (Matcher.plus (Matcher.cls (fun c => c != 46))) Matcher.eol))

/-- The array `suspiciousPatterns` of the custom check. -/
def suspiciousPatterns : List RegExp :=
  [repeatedCharacters, testEmails, missingTLD]

/-- The loop of the custom check: the first pattern that tests true throws. -/
def customLoop : List RegExp → JSString → Except String Bool
  | [], _ => .ok true
  | p :: ps, value =>
    if p.test value then .error "Invalid email format" else customLoop ps value

/-- The function given to `.custom(...)`: throws `Error('Invalid email format')`
or returns `true`. -/
def custom (value : JSString) : Except String Bool :=
  customLoop suspiciousPatterns value

/-! ## Requests, responses, logs -/

/-- A value of a JSON response body. -/
inductive JsonValue
  | bool (b : Bool)
  | str (s : String)
  deriving DecidableEq, Repr

/-- What `res.status(n).json(body)` sends. -/
structure Response where
  status : Nat
  body : List (String × JsonValue)
  deriving DecidableEq, Repr

/-- The errors that the awaited operations of the signup handler throw. -/
inductive SignupError
  | storageUnavailable
  | hashFailure
  | validationError
  | duplicateKey (email : JSString)
  deriving DecidableEq, Repr

/-- One call of the logger: level, message, and the error object passed along. -/
structure LogLine where
  level : String
  message : JSString
  error : Option SignupError
  deriving DecidableEq, Repr

/-- The operations whose execution the properties below observe. -/
inductive Op
  | validate
  | findOne
  | hashIP
  | construct
  | save
  deriving DecidableEq, Repr

/-- What the handlers read from a request. -/
structure Request where
  ip : Option JSString
  remoteAddress : Option JSString
  email : JSString
  userAgent : Option JSString
  referer : Option JSString
  utmCampaign : Option JSString
  deriving DecidableEq, Repr

/-- The library functions the code calls and whose source is not part of the
repository: `isEmail`, `normalizeEmail` and `isLength` of validator.js (through
express-validator), the Unicode part of `toLowerCase`, the digest of bcrypt as
a function of the key bytes it reads and of the salt, and the salt that a bcrypt
digest carries. -/
structure Libs where
  isEmail : JSString → Bool
  normalizeEmail : JSString → JSString
  isLength : JSString → Nat → Bool
  unicodeLower : JSString → JSString
  bcryptHash : List Nat → JSString → JSString
  bcryptSalt : JSString → JSString

/-- The call `bcrypt.hash(data, salt)`. -/
def Libs.hash (libs : Libs) (data salt : JSString) : JSString :=
  libs.bcryptHash (bcryptKey data) salt

/-- The call `bcrypt.compare(data, digest)`: the data is hashed with the salt
of the digest and the result compared with the digest. -/
def Libs.compare (libs : Libs) (data digest : JSString) : Bool :=
  libs.hash data (libs.bcryptSalt digest) == digest

/-- The settings read from the process environment. -/
structure Config where
  windowMs : Nat
  max : Nat
  ipSalt : Option JSString

/-- The defaults of `security.js`: 15 minutes, 5 requests, no `IP_SALT`. -/
def defaultConfig : Config where
  windowMs := 15 * 60 * 1000
  max := 5
  ipSalt := none

/-- What the outside world decides while one request is handled: the clock,
whether the database or bcrypt fails, and the salts bcrypt draws. -/
structure Oracle where
  now : Nat
  lookupFails : Bool
  hashIPFails : Bool
  emailHashFails : Bool
  insertFails : Bool
  ipSalt : JSString
  emailSalt : JSString
  deriving DecidableEq, Repr

/-- The operator `a || b` on optional strings: `undefined` and `''` are falsy. -/
def jsOr (a b : Option JSString) : Option JSString :=
  match a with
  | some (c :: s) => some (c :: s)
  | _ => b

/-- String conversion of an optional string, as in a template or `+`. -/
def jsToString : Option JSString → JSString
  | some s => s
  | none => utf16 "undefined"

/-! ## The rate limiter (`server/middleware/security.js`) -/

/-- The counter kept for one client: requests counted in the window, and the
time the window started. -/
structure RateEntry where
  count : Nat
  windowStart : Nat
  deriving DecidableEq, Repr

/-- The counter table of the limiter, keyed by `req.ip`. -/
abbrev RateTable := Option JSString → Option RateEntry

/-- Modelled from the spec: the counting of express-rate-limit, whose source is
not part of the repository. A per-IP counter with a window start time; a request
is counted in the current window, and the counter resets when the window has
elapsed. Returns the new table and the number of hits in the window. -/
def RateTable.hit (windowMs now : Nat) (key : Option JSString) (t : RateTable) :
    RateTable × Nat :=
  let e : RateEntry :=
    match t key with
    | some e => if now < e.windowStart + windowMs then ⟨e.count + 1, e.windowStart⟩ else ⟨1, now⟩
    | none => ⟨1, now⟩
  (Function.update t key (some e), e.count)

/-- The body the `handler` option of the limiter sends with status 429. -/
def tooManyRequests : Response where
  status := 429
  body := [("success", .bool false), ("message", .str "Too many requests, please try again later.")]

/-- The middleware `rateLimiter`: counts the request; over the cap it logs a
warning and responds (`some`), otherwise it calls `next()` (`none`). -/
def rateLimiter (cfg : Config) (now : Nat) (req : Request) (t : RateTable) :
    RateTable × Option (Response × LogLine) :=
  let r := t.hit cfg.windowMs now req.ip
  if r.2 > cfg.max then
    (r.1, some (tooManyRequests,
      ⟨"warn", utf16 "Rate limit exceeded for IP: " ++ jsToString req.ip, none⟩))
  else (r.1, none)

/-- The function `hashIP`: bcrypt over the IP followed by the salt setting. -/
def hashIP (libs : Libs) (cfg : Config) (fx : Oracle) (ip : Option JSString) :
    Except SignupError JSString :=
  let salt := jsToString (jsOr cfg.ipSalt (some (utf16 "default-salt-change-this")))
  if fx.hashIPFails then .error .hashFailure
  else .ok (libs.hash (jsToString ip ++ salt) fx.ipSalt)

/-- The array `validateEmail`, first element: the validation chain on
`body('email')`. It runs `isEmail` on the submitted value, replaces the value
by `normalizeEmail` of it, runs `isLength` with max 254 and the custom check on
the new value, and collects the message of every validator that fails. -/
def validationChain (libs : Libs) (raw : JSString) : JSString × List String :=
  let e1 := if libs.isEmail raw then [] else ["Invalid value"]
  let value := libs.normalizeEmail raw
  let e2 := if libs.isLength value 254 then [] else ["Invalid email format"]
  let e3 := match custom value with
    | .ok _ => []
    | .error m => [m]
  (value, e1 ++ e2 ++ e3)

/-- The body sent with status 400 when the validation result is not empty. -/
def invalidEmail : Response where
  status := 400
  body := [("success", .bool false), ("message", .str "Invalid email format")]

/-- The array `validateEmail` as a middleware: the request with the sanitized
email, and the response and the warning when validation failed (`none` is
`next()`). -/
def validateEmail (libs : Libs) (req : Request) : Request × Option (Response × LogLine) :=
  let r := validationChain libs req.email
  let req1 := { req with email := r.1 }
  if r.2.isEmpty then (req1, none)
  else (req1, some (invalidEmail,
    ⟨"warn", utf16 "Validation failed for email: " ++ req1.email, none⟩))

/-! ## The model (`server/models/EarlyAccess.js`) -/

/-- The sub-document `metadata`. -/
structure Metadata where
  source : Option JSString
  campaign : Option JSString
  deriving DecidableEq, Repr

/-- A document of the collection `early_access_signups`. -/
structure SignupRecord where
  email : JSString
  emailHash : Option JSString
  signupDate : Nat
  ipHash : JSString
  userAgent : Option JSString
  verified : Bool
  metadata : Metadata
  createdAt : Nat
  updatedAt : Nat
  deriving DecidableEq, Repr

/-- The collection; the unique index on `email` is enforced by `insert`. -/
abbrev Store := List SignupRecord

/-- The class `[a-zA-Z0-9]`. -/
def isAlnum (c : CodeUnit) : Bool :=
  (97 ≤ c && c ≤ 122) || (65 ≤ c && c ≤ 90) || (48 ≤ c && c ≤ 57)

/-- The class of the local part: letters, digits and
. ! # $ % & (apostrophe) * + / = ? ^ _ (backquote) (left brace) | (right brace) ~ - -/
def isLocalChar (c : CodeUnit) : Bool :=
  isAlnum c ||
  [46, 33, 35, 36, 37, 38, 39, 42, 43, 47, 61, 63, 94, 95, 96, 123, 124, 125, 126, 45].contains c

/-- The class `[a-zA-Z0-9-]`. -/
def isAlnumHyphen (c : CodeUnit) : Bool :=
  isAlnum c || c == 45

/-- The sub-pattern `[a-zA-Z0-9](?:[a-zA-Z0-9-]{0,61}[a-zA-Z0-9])?`. -/
def domainLabel : Matcher :=
  Matcher.seq (Matcher.cls isAlnum)
    (Matcher.opt (Matcher.seq (Matcher.upTo (Matcher.cls isAlnumHyphen) 61) (Matcher.cls isAlnum)))

/-- The pattern of the `validate.validator` of `email`:
local class `+`, `@`, a label, `(?:\.` label `)*`, `$`, anchored by `^`. -/
def emailFormat : RegExp where
  anchored := true
  body :=
    Matcher.seq (Matcher.plus (Matcher.cls isLocalChar))
      (Matcher.seq (Matcher.unit 64)
        (Matcher.seq domainLabel
          (Matcher.seq (Matcher.star (Matcher.seq (Matcher.unit 46) domainLabel)) Matcher.eol)))

/-- The setters of the path `email` (`lowercase: true`, `trim: true`); Mongoose
applies them to a value assigned to the path and to a value in a query filter. -/
def emailSetters (libs : Libs) (v : JSString) : JSString :=
  toLowerCase libs.unicodeLower (trim v)

/-- The paths of the schema (with the two of `timestamps: true`). -/
inductive Path
  | email
  | emailHash
  | signupDate
  | ipHash
  | userAgent
  | verified
  | metadata
  | createdAt
  | updatedAt
  deriving DecidableEq, Repr

/-- The option `select` of each path: `false` on `emailHash`, `ipHash` and
`userAgent`, not given (so `true`) on the others. -/
def Path.select : Path → Bool
  | .emailHash => false
  | .ipHash => false
  | .userAgent => false
  | _ => true

/-- The projection `.select('+emailHash')`: the default one and `emailHash`. -/
def withEmailHash (p : Path) : Bool :=
  p == .emailHash || p.select

/-- A document as a query returns it: a path that is not selected is absent. -/
structure Document where
  email : Option JSString
  emailHash : Option JSString
  signupDate : Option Nat
  ipHash : Option JSString
  userAgent : Option JSString
  verified : Option Bool
  metadata : Option Metadata
  createdAt : Option Nat
  updatedAt : Option Nat
  deriving DecidableEq, Repr

/-- Reading a stored record under a projection. -/
def project (sel : Path → Bool) (r : SignupRecord) : Document where
  email := if sel .email then some r.email else none
  emailHash := if sel .emailHash then r.emailHash else none
  signupDate := if sel .signupDate then some r.signupDate else none
  ipHash := if sel .ipHash then some r.ipHash else none
  userAgent := if sel .userAgent then r.userAgent else none
  verified := if sel .verified then some r.verified else none
  metadata := if sel .metadata then some r.metadata else none
  createdAt := if sel .createdAt then some r.createdAt else none
  updatedAt := if sel .updatedAt then some r.updatedAt else none

/-- The call `EarlyAccess.findOne` with a filter on `email`: the first record
with that email, read under the default projection. -/
def findOne (libs : Libs) (fx : Oracle) (db : Store) (email : JSString) :
    Except SignupError (Option Document) :=
  if fx.lookupFails then .error .storageUnavailable
  else .ok ((db.find? (fun r => r.email == emailSetters libs email)).map (project Path.select))

/-- The method `verifyEmailIntegrity`: `false` without an `emailHash` (absent
or empty), otherwise `bcrypt.compare` of the email with it. -/
def verifyEmailIntegrity (libs : Libs) (doc : Document) (email : JSString) : Bool :=
  match doc.emailHash with
  | none => false
  | some [] => false
  | some (c :: h) => libs.compare email (c :: h)

/-- The call `new EarlyAccess(...)` of the handler: setters and defaults applied. -/
def construct (libs : Libs) (fx : Oracle) (req : Request) (ipHash : JSString) : SignupRecord where
  email := emailSetters libs req.email
  emailHash := none
  signupDate := fx.now
  ipHash := ipHash
  userAgent := req.userAgent
  verified := false
  metadata := ⟨jsOr req.referer (some (utf16 "direct")), req.utmCampaign⟩
  createdAt := fx.now
  updatedAt := fx.now

/-- The schema validation run by `save`: `email` required, at most 254 long and
matching the pattern; `ipHash` required. -/
def schemaValid (doc : SignupRecord) : Bool :=
  !doc.email.isEmpty && decide (doc.email.length ≤ 254) && emailFormat.test doc.email &&
  !doc.ipHash.isEmpty

/-- The hook `pre('save')`: a new document with an email gets its `emailHash`. -/
def preSave (libs : Libs) (fx : Oracle) (doc : SignupRecord) : Except SignupError SignupRecord :=
  if !doc.email.isEmpty then
    if fx.emailHashFails then .error .hashFailure
    else .ok { doc with emailHash := some (libs.hash doc.email fx.emailSalt) }
  else .ok doc

/-- The insert into the collection, under the unique index on `email`. -/
def insert (fx : Oracle) (db : Store) (doc : SignupRecord) : Except SignupError Store :=
  if fx.insertFails then .error .storageUnavailable
  else if db.any (fun r => r.email == doc.email) then .error (.duplicateKey doc.email)
  else .ok (db ++ [doc])

/-- The call `signup.save()` on a new document: validation, hook, insert. -/
def save (libs : Libs) (fx : Oracle) (db : Store) (doc : SignupRecord) : Except SignupError Store :=
  if schemaValid doc then
    match preSave libs fx doc with
    | .error e => .error e
    | .ok doc1 => insert fx db doc1
  else .error .validationError

/-! ## The route (`server/routes/earlyAccess.js`) -/

/-- The response of the branch `if (existingSignup)`. -/
def thankYou : Response where
  status := 200
  body := [("success", .bool true), ("message", .str "Thank you for your interest!")]

/-- The response after `signup.save()`. -/
def signedUp : Response where
  status := 201
  body := [("success", .bool true), ("message", .str "Successfully signed up for early access!")]

/-- The response of the `catch` block. -/
def errorOccurred : Response where
  status := 500
  body := [("success", .bool false), ("message", .str "An error occurred. Please try again.")]

/-- The response of `GET /health`. -/
def health : Response where
  status := 200
  body := [("status", .str "OK")]

/-- What handling a request leaves behind: the collection, the response sent,
the operations run, the log lines written. -/
structure Result where
  db : Store
  response : Response
  ops : List Op
  logs : List LogLine
  deriving DecidableEq, Repr

/-- The `catch` block of the handler. -/
def caught (db : Store) (ops : List Op) (e : SignupError) : Result :=
  ⟨db, errorOccurred, ops, [⟨"error", utf16 "Signup error:", some e⟩]⟩

/-- The handler of `POST /signup`, after the two middlewares. -/
def signupHandler (libs : Libs) (cfg : Config) (fx : Oracle) (req : Request) (db : Store) :
    Result :=
  match findOne libs fx db req.email with
  | .error e => caught db [.findOne] e
  | .ok (some _) => ⟨db, thankYou, [.findOne], []⟩
  | .ok none =>
    match hashIP libs cfg fx (jsOr req.ip req.remoteAddress) with
    | .error e => caught db [.findOne, .hashIP] e
    | .ok ipHash =>
      match save libs fx db (construct libs fx req ipHash) with
      | .error e => caught db [.findOne, .hashIP, .construct, .save] e
      | .ok db1 =>
        ⟨db1, signedUp, [.findOne, .hashIP, .construct, .save],
          [⟨"info", utf16 "New early access signup: " ++ req.email.take 3 ++ utf16 "***", none⟩]⟩

/-- The state of the server between requests. -/
structure ServerState where
  limiter : RateTable
  db : Store

/-- The route `router.post('/signup', rateLimiter, validateEmail, handler)`. -/
def signupRoute (libs : Libs) (cfg : Config) (fx : Oracle) (req : Request) (st : ServerState) :
    ServerState × Result :=
  match rateLimiter cfg fx.now req st.limiter with
  | (t, some (resp, line)) => (⟨t, st.db⟩, ⟨st.db, resp, [], [line]⟩)
  | (t, none) =>
    match validateEmail libs req with
    | (_, some (resp, line)) => (⟨t, st.db⟩, ⟨st.db, resp, [.validate], [line]⟩)
    | (req1, none) =>
      let r := signupHandler libs cfg fx req1 st.db
      (⟨t, r.db⟩, { r with ops := .validate :: r.ops })

/-! ## Concurrent handling

The handler suspends at its three `await`s (lookup, IP hashing, save); between
two of them it runs without interruption. A request in flight is a task that
stands before one of them. -/

/-- A request being handled: about to look up, about to hash the IP (the lookup
found nothing), about to save (with the IP digest), or answered. -/
inductive Task
  | lookup (req : Request) (fx : Oracle)
  | hashing (req : Request) (fx : Oracle)
  | saving (req : Request) (fx : Oracle) (ipHash : JSString)
  | responded (resp : Response)
  deriving DecidableEq, Repr

/-- One uninterrupted stretch of the handler, up to its next `await`. -/
def Task.step (libs : Libs) (cfg : Config) (t : Task) (db : Store) : Task × Store :=
  match t with
  | .lookup req fx =>
    match findOne libs fx db req.email with
    | .error _ => (.responded errorOccurred, db)
    | .ok (some _) => (.responded thankYou, db)
    | .ok none => (.hashing req fx, db)
  | .hashing req fx =>
    match hashIP libs cfg fx (jsOr req.ip req.remoteAddress) with
    | .error _ => (.responded errorOccurred, db)
    | .ok ipHash => (.saving req fx ipHash, db)
  | .saving req fx ipHash =>
    match save libs fx db (construct libs fx req ipHash) with
    | .error _ => (.responded errorOccurred, db)
    | .ok db1 => (.responded signedUp, db1)
  | .responded resp => (.responded resp, db)

/-- A schedule names, step by step, the task that runs next. -/
def runSchedule (libs : Libs) (cfg : Config) :
    List Nat → List Task × Store → List Task × Store
  | [], s => s
  | i :: sched, (tasks, db) =>
    match tasks.get? i with
    | none => runSchedule libs cfg sched (tasks, db)
    | some t =>
      let r := t.step libs cfg db
      runSchedule libs cfg sched (tasks.set i r.1, r.2)

/-! ## Reachable states -/

/-- The states the server reaches from an empty collection by handling signup
requests one after the other. -/
inductive Reachable (libs : Libs) (cfg : Config) : ServerState → Prop
  | init (t : RateTable) : Reachable libs cfg ⟨t, []⟩
  | step (st : ServerState) (fx : Oracle) (req : Request) :
      Reachable libs cfg st → Reachable libs cfg (signupRoute libs cfg fx req st).1

/-! ## A concrete setting for evaluation -/

/-- Stand-ins for the library functions, used to evaluate the model on plain
ASCII addresses of ordinary domains, where they behave as the libraries do:
`isEmail` accepts an address of the schema pattern with a dotted domain,
`normalizeEmail` lower-cases, `isLength` compares the length, and the digest is
the salt (nine code units in the runs below) followed by the key bytes. -/
def plainLibs : Libs where
  isEmail := fun s => emailFormat.test s && !missingTLD.test s
  normalizeEmail := fun s => s.map asciiLowerUnit
  isLength := fun s n => decide (s.length ≤ n)
  unicodeLower := fun s => s
  bcryptHash := fun key salt => salt ++ key
  bcryptSalt := fun digest => digest.take 9

/-- The stand-ins of `plainLibs` with an `isEmail` that also accepts, in the
local part, the code units from U+00A1 up, as validator.js does by default
(`allow_utf8_local_part: true`); used to evaluate the model on
`josé@example.com`. -/
def intlLibs : Libs :=
  { plainLibs with
    isEmail := fun s =>
      plainLibs.isEmail ((s.takeWhile (fun c => c != 64)).map (fun c => if 161 ≤ c then 97 else c) ++
        s.dropWhile (fun c => c != 64)) }

/-- A request from 203.0.113.7 with the given email and no headers. -/
def plainRequest (email : String) : Request where
  ip := some (utf16 "203.0.113.7")
  remoteAddress := none
  email := utf16 email
  userAgent := none
  referer := none
  utmCampaign := none

/-- A run in which nothing fails, at the given time. -/
def calm (now : Nat) : Oracle where
  now := now
  lookupFails := false
  hashIPFails := false
  emailHashFails := false
  insertFails := false
  ipSalt := utf16 "$2b$10$ip"
  emailSalt := utf16 "$2b$10$em"

/-- A long address at `example.org`. -/
def longOrg : JSString :=
  utf16 "first.last.with.a.very.long.mailbox.name.for.the.newsletter@mail.department.example.org"

/-- The same address at `example.com`: it differs from `longOrg` after the
first 72 bytes only. -/
def longCom : JSString :=
  utf16 "first.last.with.a.very.long.mailbox.name.for.the.newsletter@mail.department.example.com"

/-- Requests of one client arriving at the given times, one after the other:
what the limiter answers to each (`none` is `next()`). -/
def limiterRun (cfg : Config) (req : Request) : List Nat → RateTable → List (Option Response)
  | [], _ => []
  | now :: later, t =>
    let r := rateLimiter cfg now req t
    r.2.map Prod.fst :: limiterRun cfg req later r.1

/-- A response counts as a success when its status is 2xx and its body has
`success: true`. -/
def Response.isSuccess (r : Response) : Bool :=
  decide (200 ≤ r.status ∧ r.status < 300) && r.body.lookup "success" == some (JsonValue.bool true)

/-! ## The application (`server/index.js`) -/

/-- What the error-handling middleware reads from an error: `err.message` and
`err.status`. -/
structure AppError where
  message : String
  status : Option Nat
  deriving DecidableEq, Repr

/-- The error-handling middleware of the application, given `NODE_ENV`: the
message is fixed in production and `err.message` otherwise; the status is
`err.status || 500`. -/
def errorHandler (nodeEnv : Option JSString) (err : AppError) : Response where
  status :=
    match err.status with
    | some (n + 1) => n + 1
    | _ => 500
  body :=
    [("success", .bool false),
      ("message", .str (if nodeEnv = some (utf16 "production") then "Something went wrong!"
        else err.message))]

/-! ## The grammar of an email, in the words of the specification -/

/-- A label of a domain: 1 to 63 characters, each a letter, a digit or a hyphen
(45), neither the first nor the last a hyphen. -/
def IsLabel (l : JSString) : Prop :=
  1 ≤ l.length ∧ l.length ≤ 63 ∧ (∀ c ∈ l, isAlnum c = true ∨ c = 45) ∧
  l.head? ≠ some 45 ∧ l.getLast? ≠ some 45

/-- A domain: one or more labels separated by dots (46). -/
def dotted (labels : List JSString) : JSString :=
  List.intercalate [46] labels

/-! ## The application as a whole (`server/index.js`, `securityMiddleware`) -/

/-- The headers of a response: name and value. -/
abbrev Headers := List (String × String)

/-- The call `res.removeHeader(name)`. -/
def removeHeader (h : Headers) (name : String) : Headers :=
  h.filter (fun p => p.1 != name)

/-- The call `res.setHeader(name, value)`: it replaces a value set before. -/
def setHeader (h : Headers) (name value : String) : Headers :=
  removeHeader h name ++ [(name, value)]

/-- The number of items of `s.split(',')` (44 is the comma). -/
def commaItems (s : JSString) : Nat :=
  s.count 44 + 1

/-- The middleware `securityMiddleware`: it removes `X-Powered-By`, sets five
headers, warns about a chain of more than five proxies, and calls `next()`. -/
def securityMiddleware (forwardedFor ip : Option JSString) (h : Headers) :
    Headers × List LogLine :=
  (setHeader (setHeader (setHeader (setHeader (setHeader (removeHeader h "X-Powered-By")
      "X-Content-Type-Options" "nosniff")
      "X-Frame-Options" "DENY")
      "X-XSS-Protection" "1; mode=block")
      "Referrer-Policy" "strict-origin-when-cross-origin")
      "Permissions-Policy" "geolocation=(), microphone=(), camera=()",
    match forwardedFor with
    | some (c :: s) =>
      if commaItems (c :: s) > 5 then
        [⟨"warn", utf16 "Suspicious proxy chain detected from IP: " ++ jsToString ip, none⟩]
      else []
    | _ => [])

/-- The routes a request can address: the two of the router, or anything else. -/
inductive Endpoint
  | signup
  | health
  | other
  deriving DecidableEq, Repr

/-- A request as the application receives it: the route it addresses, the error
the body parser throws on its body (if it does), the header `x-forwarded-for`,
what the handlers read, and whether its method is OPTIONS. -/
structure Incoming where
  endpoint : Endpoint
  parseError : Option AppError
  forwardedFor : Option JSString
  req : Request
  isOptions : Bool
  deriving DecidableEq, Repr

/-- What the application sends and does for one request. -/
structure Outgoing where
  response : Response
  headers : Headers
  ops : List Op
  logs : List LogLine
  deriving DecidableEq, Repr

/-- The chain of `index.js`. The middlewares registered before the body parsers
(helmet, cors) have set the headers `early` for this request. cors ends a
request of method OPTIONS itself, with the status of `optionsSuccessStatus: 200`
and no body, before anything registered after it runs. For the other requests an
error of the body parser goes to the error handler, past everything registered
after the parser; otherwise `securityMiddleware` runs and then the router (an
address outside the router gets the 404 of Express, whose body is not
modelled). The error object logged by the error handler is not recorded. -/
def app (libs : Libs) (cfg : Config) (nodeEnv : Option JSString) (early : Headers)
    (fx : Oracle) (inc : Incoming) (st : ServerState) : ServerState × Outgoing :=
  if inc.isOptions then (st, ⟨⟨200, []⟩, early, [], []⟩)
  else
    match inc.parseError with
    | some err => (st, ⟨errorHandler nodeEnv err, early, [], [⟨"error", utf16 "Error:", none⟩]⟩)
    | none =>
      let sec := securityMiddleware inc.forwardedFor inc.req.ip early
      match inc.endpoint with
      | .signup =>
        let r := signupRoute libs cfg fx inc.req st
        (r.1, ⟨r.2.response, sec.1, r.2.ops, sec.2 ++ r.2.logs⟩)
      | .health => (st, ⟨health, sec.1, [], sec.2⟩)
      | .other => (st, ⟨⟨404, []⟩, sec.1, [], sec.2⟩)

/-- The three hardening headers as helmet sets them with the options of
`index.js` (which configure the content security policy and HSTS only). -/
def helmetDefaults : Headers :=
  [("X-Content-Type-Options", "nosniff"), ("X-Frame-Options", "SAMEORIGIN"),
    ("Referrer-Policy", "no-referrer")]

/-- Signup requests handled one after the other: what each leaves behind. -/
def serve (libs : Libs) (cfg : Config) : List (Oracle × Request) → ServerState → List Result
  | [], _ => []
  | (fx, req) :: rest, st =>
    let r := signupRoute libs cfg fx req st
    r.2 :: serve libs cfg rest r.1

/-! ## The settings of the limiter (`parseInt(...) || default`) -/

/-- The value of a decimal digit. -/
def decDigit (c : CodeUnit) : Option Nat :=
  if 48 ≤ c && c ≤ 57 then some (c - 48) else none

/-- The value of a hexadecimal digit. -/
def hexDigit (c : CodeUnit) : Option Nat :=
  if 48 ≤ c && c ≤ 57 then some (c - 48)
  else if 97 ≤ c && c ≤ 102 then some (c - 87)
  else if 65 ≤ c && c ≤ 70 then some (c - 55)
  else none

/-- The values of the longest prefix of digits. -/
def digitsPrefix (digit : CodeUnit → Option Nat) : JSString → List Nat
  | [] => []
  | c :: s =>
    match digit c with
    | some d => d :: digitsPrefix digit s
    | none => []

/-- The sign of `parseInt`: a leading `-` (45) or `+` (43) is taken off. -/
def takeSign : JSString → Bool × JSString
  | 45 :: r => (true, r)
  | 43 :: r => (false, r)
  | s => (false, s)

/-- The radix of `parseInt` without a second argument: 16 after a leading `0x`
or `0X` (which is taken off), otherwise 10. -/
def takeRadix : JSString → Nat × JSString
  | 48 :: 120 :: r => (16, r)
  | 48 :: 88 :: r => (16, r)
  | s => (10, s)

/-- A value of the type Number that `parseInt` can return: `NaN`, a finite
integer, or an infinity (`-0` is not told from `0`: both are falsy). -/
inductive JSNumber
  | nan
  | num (v : Int)
  | inf (negative : Bool)
  deriving DecidableEq, Repr

/-- The number of binary digits of `n`, with `fuel` at least that number. -/
def bitsAux : Nat → Nat → Nat
  | 0, _ => 0
  | fuel + 1, n => if n = 0 then 0 else bitsAux fuel (n / 2) + 1

/-- The number of binary digits of `n`. -/
def bitLength (n : Nat) : Nat :=
  bitsAux n n

/-- The double nearest to the natural number `n`: a number below 2^53 is a
double itself; a larger one is rounded to a multiple of `unit`, the power of two
that leaves a significand of 53 bits, ties going to the even significand; `none`
when the rounded value is 2^1024 or more (an infinity). -/
def roundToDouble (n : Nat) : Option Nat :=
  if n < 2 ^ 53 then some n
  else
    let unit := 1 <<< (bitLength n - 53)
    let q := n / unit
    let r := n % unit
    let q1 := if unit < 2 * r ∨ (2 * r = unit ∧ q % 2 = 1) then q + 1 else q
    if q1 * unit < 1 <<< 1024 then some (q1 * unit) else none

/-- The Number value of the integer of sign `negative` and magnitude `n`. -/
def toNumber (negative : Bool) (n : Nat) : JSNumber :=
  match roundToDouble n with
  | some m => .num (if negative then -(m : Int) else m)
  | none => .inf negative

/-- The function `parseInt` with one argument: the argument as a string
(`undefined` for an absent one), leading white space skipped, the sign, the
radix, then the longest prefix of digits; without a digit the result is `NaN`,
otherwise the Number value of the integer the digits write (rounded to the
nearest double above 2^53, an infinity when too large; V8 rounds the exact
integer also where ECMA-262 allows an approximation, past 20 digits). -/
def parseInt (input : Option JSString) : JSNumber :=
  let signed := takeSign ((jsToString input).dropWhile isTrimmable)
  let based := takeRadix signed.2
  let ds := digitsPrefix (if based.1 = 16 then hexDigit else decDigit) based.2
  if ds.isEmpty then .nan
  else toNumber signed.1 (ds.foldl (fun a d => a * based.1 + d) 0)

/-- The operator `n || d` on numbers: `NaN` and `0` are falsy. -/
def orDefault (n : JSNumber) (d : Int) : JSNumber :=
  match n with
  | .num v => if v = 0 then .num d else .num v
  | .nan => .num d
  | .inf negative => .inf negative

/-- The option `windowMs` of the limiter, from `RATE_LIMIT_WINDOW_MS`. -/
def windowMsSetting (env : Option JSString) : JSNumber :=
  orDefault (parseInt env) (15 * 60 * 1000)

/-- The option `max` of the limiter, from `RATE_LIMIT_MAX_REQUESTS`. -/
def maxSetting (env : Option JSString) : JSNumber :=
  orDefault (parseInt env) 5

/-! ## The image trim (`src/TrimmedImage.jsx`) -/

/-- The variables of the scan: the bounds and the flag `found`. -/
structure Box where
  minX : Nat
  minY : Nat
  maxX : Nat
  maxY : Nat
  found : Bool
  deriving DecidableEq, Repr

/-- The body of the inner loop at the pixel `(x, y)`; `data i` is
`data.data[i]`. -/
def scanPixel (w : Nat) (data : Nat → Nat) (y : Nat) (b : Box) (x : Nat) : Box :=
  if data ((y * w + x) * 4 + 3) ≠ 0 then
    { found := true
      minX := if x < b.minX then x else b.minX
      maxX := if x > b.maxX then x else b.maxX
      minY := if y < b.minY then y else b.minY
      maxY := if y > b.maxY then y else b.maxY }
  else b

/-- The inner loop: `x` from 0 to `w - 1`. -/
def scanRow (w : Nat) (data : Nat → Nat) (b : Box) (y : Nat) : Box :=
  (List.range w).foldl (scanPixel w data y) b

/-- The two loops, from the initial values `minX = w, minY = h, maxX = 0,
maxY = 0, found = false`. -/
def scan (w h : Nat) (data : Nat → Nat) : Box :=
  (List.range h).foldl (scanRow w data) ⟨w, h, 0, 0, false⟩

/-- What `onload` does to the source: it sets the original one, or the crop of
the canvas at `(sx, sy)` of size `tw` by `th`, or it throws before setting
anything (the component then keeps rendering nothing). -/
inductive Trimmed
  | original
  | crop (sx sy tw th : Nat)
  | threw
  deriving DecidableEq, Repr

/-- The computation of `img.onload` on an image of `w` by `h` pixels.
`getImageData(0, 0, w, h)` throws an `IndexSizeError` when `w` or `h` is zero,
before the scan and before `setTrimmedSrc`. -/
def trimImage (w h : Nat) (data : Nat → Nat) : Trimmed :=
  if w = 0 ∨ h = 0 then .threw
  else
    let b := scan w h data
    if !b.found then .original
    else .crop b.minX b.minY (b.maxX - b.minX + 1) (b.maxY - b.minY + 1)

/-- The alpha of the pixel `(x, y)`. -/
def alpha (w : Nat) (data : Nat → Nat) (x y : Nat) : Nat :=
  data ((y * w + x) * 4 + 3)

/-- The invariant of the scan over the pixels `seen` so far: while nothing is
found the variables have their initial values and every pixel seen is
transparent; once something is found the bounds enclose every non-transparent
pixel seen and each bound is the coordinate of one of them. -/
def BoxInv (w h : Nat) (data : Nat → Nat) (seen : Nat → Nat → Prop) (b : Box) : Prop :=
  (b.found = false →
    b = ⟨w, h, 0, 0, false⟩ ∧ ∀ x y, seen x y → alpha w data x y = 0) ∧
  (b.found = true →
    (∀ x y, seen x y → alpha w data x y ≠ 0 →
      b.minX ≤ x ∧ x ≤ b.maxX ∧ b.minY ≤ y ∧ y ≤ b.maxY) ∧
    (∃ y, seen b.minX y ∧ alpha w data b.minX y ≠ 0) ∧
    (∃ y, seen b.maxX y ∧ alpha w data b.maxX y ≠ 0) ∧
    (∃ x, seen x b.minY ∧ alpha w data x b.minY ≠ 0) ∧
    (∃ x, seen x b.maxY ∧ alpha w data x b.maxY ≠ 0))

/-! ## The signup form (`src/App.jsx`) -/

/-- The state `handleEmailSubmit` reads and writes. -/
structure FormState where
  isSubmitted : Bool
  isSubmitting : Bool
  emailValue : JSString
  submissionError : JSString
  submissionText : JSString
  scrambleVisible : Bool
  deriving DecidableEq, Repr

/-- What the awaited `fetch` and `response.json()` give: an answer with
`response.ok`, `data.success` and `data.message`, or an exception. -/
inductive Reply
  | answered (ok success : Bool) (message : Option JSString)
  | failed
  deriving DecidableEq, Repr

/-- A call of `fetch` with method POST and the JSON body `email: ...`. -/
structure Post where
  url : JSString
  email : JSString
  deriving DecidableEq, Repr

/-- The function `handleEmailSubmit`: the state it leaves and the requests it
sends (the animations are left out). -/
def handleEmailSubmit (apiUrl : JSString) (s : FormState) (reply : Reply) :
    FormState × List Post :=
  if s.isSubmitted || (trim s.emailValue).isEmpty || s.isSubmitting then
    if (trim s.emailValue).isEmpty then
      ({ s with submissionError := utf16 "Please enter your email" }, [])
    else (s, [])
  else
    let sent : List Post := [⟨apiUrl ++ utf16 "/api/early-access/signup", s.emailValue⟩]
    match reply with
    | .answered true true _ =>
      ({ s with isSubmitting := false, submissionError := [], submissionText := s.emailValue,
                scrambleVisible := true }, sent)
    | .answered _ _ message =>
      ({ s with isSubmitting := false,
                submissionError :=
                  jsToString (jsOr message (some (utf16 "Something went wrong. Please try again."))) },
        sent)
    | .failed =>
      ({ s with isSubmitting := false,
                submissionError :=
                  utf16 "Network error. Please check your connection and try again." }, sent)

/-! ## Lemmas on matchers -/

theorem Matcher.mem_seq {a b : Matcher} {s r : JSString} :
    r ∈ Matcher.seq a b s ↔ ∃ m, m ∈ a s ∧ r ∈ b m := by
  simp [Matcher.seq, List.mem_flatMap]

theorem Matcher.unit_cons (u : CodeUnit) (r : JSString) : Matcher.unit u (u :: r) = [r] := by
  simp [Matcher.unit, Matcher.cls]

theorem Matcher.self_mem_upTo (a : Matcher) (n : Nat) (s : JSString) :
    s ∈ Matcher.upTo a n s := by
  cases n <;> simp [Matcher.upTo]

theorem Matcher.self_mem_star (a : Matcher) (s : JSString) : s ∈ Matcher.star a s :=
  Matcher.self_mem_upTo a _ s

theorem Matcher.mem_upTo_cls (p : CodeUnit → Bool) :
    ∀ (run : JSString) (n : Nat) (rest : JSString), run.length ≤ n →
      (∀ c ∈ run, p c = true) → rest ∈ Matcher.upTo (Matcher.cls p) n (run ++ rest) := by
  intro run
  induction run with
  | nil => intro n rest _ _; exact Matcher.self_mem_upTo _ n rest
  | cons c run ih =>
    intro n rest hn hp
    cases n with
    | zero => simp at hn
    | succ n =>
      have hc : p c = true := hp c (List.mem_cons_self _ _)
      have hrun : ∀ d ∈ run, p d = true := fun d hd => hp d (List.mem_cons_of_mem _ hd)
      have hlen : run.length ≤ n := by simpa using hn
      have := ih n rest hlen hrun
      simp [Matcher.upTo, Matcher.cls, hc, this]

theorem Matcher.mem_plus_cls (p : CodeUnit → Bool) (run rest : JSString) (hne : run ≠ [])
    (hp : ∀ c ∈ run, p c = true) : rest ∈ Matcher.plus (Matcher.cls p) (run ++ rest) := by
  cases run with
  | nil => exact absurd rfl hne
  | cons c run =>
    have hc : p c = true := hp c (List.mem_cons_self _ _)
    have hrun : ∀ d ∈ run, p d = true := fun d hd => hp d (List.mem_cons_of_mem _ hd)
    refine Matcher.mem_seq.mpr ⟨run ++ rest, ?_, ?_⟩
    · simp [Matcher.cls, hc]
    · exact Matcher.mem_upTo_cls p run _ rest (by simp) hrun

theorem Matcher.mem_exactly_unit (c : CodeUnit) :
    ∀ (n : Nat) (rest : JSString),
      rest ∈ Matcher.exactly (Matcher.unit c) n (List.replicate n c ++ rest) := by
  intro n
  induction n with
  | zero => intro rest; simp [Matcher.exactly, Matcher.eps]
  | succ n ih =>
    intro rest
    refine Matcher.mem_seq.mpr ⟨List.replicate n c ++ rest, ?_, ih rest⟩
    simp [List.replicate_succ, Matcher.unit_cons]

theorem RegExp.test_search {re : RegExp} (h : re.anchored = false) (pre t : JSString)
    (ht : re.body t ≠ []) : re.test (pre ++ t) = true := by
  simp only [RegExp.test, h, Bool.false_eq_true, if_false, List.any_eq_true]
  refine ⟨t, (List.mem_tails _ _).mpr (List.suffix_append pre t), ?_⟩
  cases hb : re.body t with
  | nil => exact absurd hb ht
  | cons _ _ => rfl

theorem customLoop_of_test (value : JSString) :
    ∀ (ps : List RegExp) (p : RegExp), p ∈ ps → p.test value = true →
      customLoop ps value = .error "Invalid email format" := by
  intro ps
  induction ps with
  | nil => intro p hp; simp at hp
  | cons q ps ih =>
    intro p hp ht
    by_cases hq : q.test value = true
    · simp [customLoop, hq]
    · rcases List.mem_cons.mp hp with rfl | hp
      · exact absurd ht hq
      · simp [customLoop, hq, ih p hp ht]

theorem repeatedCharacters_run (pre post : JSString) (c : CodeUnit) (n : Nat) (hn : 5 ≤ n)
    (hc : isLineTerminator c = false) :
    repeatedCharacters.test (pre ++ List.replicate n c ++ post) = true := by
  obtain ⟨k, rfl⟩ : ∃ k, n = k + 5 := ⟨n - 5, by omega⟩
  rw [List.append_assoc]
  apply RegExp.test_search rfl
  have hmem : (List.replicate k c ++ post) ∈
      Matcher.atLeast (Matcher.unit c) 4 (List.replicate 4 c ++ (List.replicate k c ++ post)) :=
    Matcher.mem_seq.mpr ⟨_, Matcher.mem_exactly_unit c 4 _, Matcher.self_mem_star _ _⟩
  have hshape : List.replicate (k + 5) c ++ post =
      c :: (List.replicate 4 c ++ (List.replicate k c ++ post)) := by
    simp [List.replicate_succ, List.replicate_add]
  rw [hshape]
  simp only [repeatedCharacters, hc]
  exact List.ne_nil_of_mem hmem

theorem missingTLD_shape (loc dom : JSString) (hl : loc ≠ []) (hl2 : 64 ∉ loc)
    (hd : dom ≠ []) (hd2 : 46 ∉ dom) : missingTLD.test (loc ++ 64 :: dom) = true := by
  have h1 : (64 :: dom) ∈ Matcher.plus (Matcher.cls (fun c => c != 64)) (loc ++ 64 :: dom) :=
    Matcher.mem_plus_cls _ loc _ hl (by
      intro c hc
      have : c ≠ 64 := fun h => hl2 (h ▸ hc)
      simpa using this)
  have h2 : ([] : JSString) ∈ Matcher.plus (Matcher.cls (fun c => c != 46)) (dom ++ []) :=
    Matcher.mem_plus_cls _ dom _ hd (by
      intro c hc
      have : c ≠ 46 := fun h => hd2 (h ▸ hc)
      simpa using this)
  rw [List.append_nil] at h2
  have hbody : ([] : JSString) ∈ missingTLD.body (loc ++ 64 :: dom) := by
    refine Matcher.mem_seq.mpr ⟨_, h1, Matcher.mem_seq.mpr ⟨dom, ?_, Matcher.mem_seq.mpr ⟨[], h2, ?_⟩⟩⟩
    · simp [Matcher.unit_cons]
    · simp [Matcher.eol]
  simp only [RegExp.test, missingTLD, if_true]
  cases hb : missingTLD.body (loc ++ 64 :: dom) with
  | nil => rw [hb] at hbody; simp at hbody
  | cons _ _ => simp [missingTLD] at hb ⊢; simp [hb]

theorem customLoop_ok_of_none (value : JSString) :
    ∀ (ps : List RegExp), (∀ p ∈ ps, p.test value = false) → customLoop ps value = .ok true := by
  intro ps
  induction ps with
  | nil => intro _; rfl
  | cons q ps ih =>
    intro h
    have hq : q.test value = false := h q (List.mem_cons_self _ _)
    simp [customLoop, hq, ih (fun p hp => h p (List.mem_cons_of_mem _ hp))]

theorem custom_error_of_test (value : JSString) (p : RegExp) (hp : p ∈ suspiciousPatterns)
    (ht : p.test value = true) : custom value = .error "Invalid email format" :=
  customLoop_of_test value suspiciousPatterns p hp ht

/-! ## The custom check -/

/-- C9 as stated fails: the value `"\n\n\n\n\n"@example.com` (a quoted local part
of five line feeds, code unit 10) holds five identical characters in a row and
the custom check returns `true` for it, because `.` matches no line terminator. -/
theorem custom_accepts_line_feed_run :
    custom ([34] ++ List.replicate 5 10 ++ (34 :: utf16 "@example.com")) = .ok true := by
  decide

/-- C9, amended: every value that holds five or more identical code units in a
row, the code unit not being a line terminator (LF, CR, U+2028, U+2029), makes
the custom check throw `Invalid email format`, wherever the run stands. -/
theorem custom_rejects_repeated (pre post : JSString) (c : CodeUnit) (n : Nat) (hn : 5 ≤ n)
    (hc : isLineTerminator c = false) :
    custom (pre ++ List.replicate n c ++ post) = .error "Invalid email format" :=
  custom_error_of_test _ repeatedCharacters (by simp [suspiciousPatterns])
    (repeatedCharacters_run pre post c n hn hc)

/-- The amended C9 at `aaaaa@test.com`. -/
theorem custom_rejects_repeated_witness :
    isLineTerminator 97 = false ∧
    custom (utf16 "aaaaa@test.com") = .error "Invalid email format" :=
  ⟨by decide, custom_rejects_repeated [] (utf16 "@test.com") 97 5 (by decide) (by decide)⟩

/-- C10: every value `local@domain` (64 is `@`) with a non-empty local part
free of `@` and a non-empty domain free of `.` (46) makes the custom check throw
`Invalid email format`. -/
theorem custom_rejects_missing_tld (loc dom : JSString) (hl : loc ≠ []) (hl2 : 64 ∉ loc)
    (hd : dom ≠ []) (hd2 : 46 ∉ dom) :
    custom (loc ++ 64 :: dom) = .error "Invalid email format" :=
  custom_error_of_test _ missingTLD (by simp [suspiciousPatterns])
    (missingTLD_shape loc dom hl hl2 hd hd2)

/-- C10 at `test@test` and at `a@b`. -/
theorem custom_rejects_missing_tld_witness :
    (utf16 "test" ≠ [] ∧ 64 ∉ utf16 "test" ∧ 46 ∉ utf16 "test") ∧
    custom (utf16 "test@test") = .error "Invalid email format" ∧
    custom (utf16 "a@b") = .error "Invalid email format" :=
  ⟨by decide,
    custom_rejects_missing_tld (utf16 "test") (utf16 "test") (by decide) (by decide) (by decide)
      (by decide),
    custom_rejects_missing_tld (utf16 "a") (utf16 "b") (by decide) (by decide) (by decide)
      (by decide)⟩

/-! ## The rate limiter -/

theorem hit_fresh (w now : Nat) (key : Option JSString) (t : RateTable)
    (h : ∀ e, t key = some e → e.windowStart + w ≤ now) :
    t.hit w now key = (Function.update t key (some ⟨1, now⟩), 1) := by
  unfold RateTable.hit
  cases ht : t key with
  | none => rfl
  | some e =>
    have := h e ht
    have hlt : ¬ now < e.windowStart + w := by omega
    simp [hlt]

theorem hit_in_window (w now : Nat) (key : Option JSString) (t : RateTable) (e : RateEntry)
    (ht : t key = some e) (h : now < e.windowStart + w) :
    t.hit w now key = (Function.update t key (some ⟨e.count + 1, e.windowStart⟩), e.count + 1) := by
  unfold RateTable.hit
  simp [ht, h]

theorem rateLimiter_fresh (cfg : Config) (now : Nat) (req : Request) (t : RateTable)
    (hmax : 1 ≤ cfg.max) (h : ∀ e, t req.ip = some e → e.windowStart + cfg.windowMs ≤ now) :
    rateLimiter cfg now req t = (Function.update t req.ip (some ⟨1, now⟩), none) := by
  have hh := hit_fresh cfg.windowMs now req.ip t h
  have : ¬ 1 > cfg.max := by omega
  simp [rateLimiter, hh, this]

theorem rateLimiter_in_window (cfg : Config) (now : Nat) (req : Request) (t : RateTable)
    (e : RateEntry) (ht : t req.ip = some e) (h : now < e.windowStart + cfg.windowMs) :
    rateLimiter cfg now req t =
      (Function.update t req.ip (some ⟨e.count + 1, e.windowStart⟩),
        if e.count + 1 > cfg.max then
          some (tooManyRequests,
            ⟨"warn", utf16 "Rate limit exceeded for IP: " ++ jsToString req.ip, none⟩)
        else none) := by
  have hh := hit_in_window cfg.windowMs now req.ip t e ht h
  by_cases hc : e.count + 1 > cfg.max <;> simp [rateLimiter, hh, hc]

/-- C6: when the request count of the client's IP in the current window, this
request included, exceeds the cap, `POST /signup` answers 429 with the body
`success: false, message: 'Too many requests, please try again later.'`, no
operation of the validator or of the handler runs, and the collection is
unchanged. -/
theorem rate_limited_short_circuits (libs : Libs) (cfg : Config) (fx : Oracle) (req : Request)
    (st : ServerState) (hover : cfg.max < (st.limiter.hit cfg.windowMs fx.now req.ip).2) :
    (signupRoute libs cfg fx req st).2.response =
        ⟨429, [("success", .bool false),
          ("message", .str "Too many requests, please try again later.")]⟩ ∧
    (signupRoute libs cfg fx req st).2.ops = [] ∧
    (signupRoute libs cfg fx req st).1.db = st.db := by
  have h : (st.limiter.hit cfg.windowMs fx.now req.ip).2 > cfg.max := hover
  simp [signupRoute, rateLimiter, h, tooManyRequests]

/-- C6 for a client that has made five requests in the window that started at
time 0, with the default settings, at time 1000. -/
theorem rate_limited_short_circuits_witness :
    defaultConfig.max <
      (RateTable.hit defaultConfig.windowMs (calm 1000).now (plainRequest "alice@example.com").ip
        (fun _ => some ⟨5, 0⟩)).2 ∧
    (signupRoute plainLibs defaultConfig (calm 1000) (plainRequest "alice@example.com")
        ⟨fun _ => some ⟨5, 0⟩, []⟩).2.response =
        ⟨429, [("success", .bool false),
          ("message", .str "Too many requests, please try again later.")]⟩ :=
  ⟨by decide,
    (rate_limited_short_circuits plainLibs defaultConfig (calm 1000)
      (plainRequest "alice@example.com") ⟨fun _ => some ⟨5, 0⟩, []⟩ (by decide)).1⟩

theorem limiterRun_cons_fresh (cfg : Config) (now : Nat) (req : Request) (t : RateTable)
    (later : List Nat) (hmax : 1 ≤ cfg.max)
    (h : ∀ e, t req.ip = some e → e.windowStart + cfg.windowMs ≤ now) :
    limiterRun cfg req (now :: later) t =
      none :: limiterRun cfg req later (Function.update t req.ip (some ⟨1, now⟩)) := by
  simp [limiterRun, rateLimiter_fresh cfg now req t hmax h]

theorem limiterRun_cons_counted (cfg : Config) (now : Nat) (req : Request) (t : RateTable)
    (c s : Nat) (later : List Nat) (h : now < s + cfg.windowMs) :
    limiterRun cfg req (now :: later) (Function.update t req.ip (some ⟨c, s⟩)) =
      (if c + 1 > cfg.max then some tooManyRequests else none) ::
        limiterRun cfg req later
          (Function.update (Function.update t req.ip (some ⟨c, s⟩)) req.ip (some ⟨c + 1, s⟩)) := by
  have hs := rateLimiter_in_window cfg now req (Function.update t req.ip (some ⟨c, s⟩)) ⟨c, s⟩
    (Function.update_same _ _ _) h
  by_cases hc : c + 1 > cfg.max <;> simp [limiterRun, hs, hc]

theorem limiterRun_cons_expired (cfg : Config) (now : Nat) (req : Request) (t : RateTable)
    (c s : Nat) (later : List Nat) (hmax : 1 ≤ cfg.max) (h : s + cfg.windowMs ≤ now) :
    limiterRun cfg req (now :: later) (Function.update t req.ip (some ⟨c, s⟩)) =
      none :: limiterRun cfg req later
        (Function.update (Function.update t req.ip (some ⟨c, s⟩)) req.ip (some ⟨1, now⟩)) := by
  apply limiterRun_cons_fresh cfg now req _ later hmax
  intro e he
  rw [Function.update_same] at he
  cases he
  exact h

/-- C7: with the default settings (window 900000 ms, cap 5) and no running
window for the client at `t1`, six attempts at `t1`..`t6`, all before the window
opened at `t1` has elapsed, get: five times `next()`, then the 429 response; a
seventh attempt at `t7`, once the window has elapsed, gets `next()` again. -/
theorem six_attempts_then_window (req : Request) (t : RateTable) (t1 t2 t3 t4 t5 t6 t7 : Nat)
    (h0 : ∀ e, t req.ip = some e → e.windowStart + 900000 ≤ t1)
    (h2 : t2 < t1 + 900000) (h3 : t3 < t1 + 900000) (h4 : t4 < t1 + 900000)
    (h5 : t5 < t1 + 900000) (h6 : t6 < t1 + 900000) (h7 : t1 + 900000 ≤ t7) :
    limiterRun defaultConfig req [t1, t2, t3, t4, t5, t6, t7] t =
      [none, none, none, none, none, some tooManyRequests, none] := by
  have hm : defaultConfig.max = 5 := rfl
  rw [limiterRun_cons_fresh defaultConfig t1 req t _ (by decide) h0,
    limiterRun_cons_counted defaultConfig t2 req _ 1 t1 _ h2,
    limiterRun_cons_counted defaultConfig t3 req _ 2 t1 _ h3,
    limiterRun_cons_counted defaultConfig t4 req _ 3 t1 _ h4,
    limiterRun_cons_counted defaultConfig t5 req _ 4 t1 _ h5,
    limiterRun_cons_counted defaultConfig t6 req _ 5 t1 _ h6,
    limiterRun_cons_expired defaultConfig t7 req _ 6 t1 _ (by decide) h7]
  simp [hm, limiterRun]

/-- C7 at the times 0, 1, 2, 3, 4, 5 and 900000, from an empty table. -/
theorem six_attempts_then_window_witness :
    (5 : Nat) < 0 + 900000 ∧
    limiterRun defaultConfig (plainRequest "alice@example.com") [0, 1, 2, 3, 4, 5, 900000]
        (fun _ => none) =
      [none, none, none, none, none, some tooManyRequests, none] :=
  ⟨by decide,
    six_attempts_then_window (plainRequest "alice@example.com") (fun _ => none)
      0 1 2 3 4 5 900000 (by intro e he; cases he) (by decide) (by decide) (by decide)
      (by decide) (by decide) (by decide)⟩

/-! ## The collection -/

theorem insert_ok {fx : Oracle} {db db1 : Store} {doc : SignupRecord}
    (h : insert fx db doc = .ok db1) :
    db1 = db ++ [doc] ∧ ∀ r ∈ db, r.email ≠ doc.email := by
  unfold insert at h
  by_cases hf : fx.insertFails = true
  · simp [hf] at h
  · by_cases hd : db.any (fun r => r.email == doc.email) = true
    · simp [hf, hd] at h
    · simp only [hf, hd, Bool.false_eq_true, if_false] at h
      refine ⟨by cases h; rfl, ?_⟩
      intro r hr heq
      exact hd (List.any_eq_true.mpr ⟨r, hr, by simp [heq]⟩)

theorem preSave_email {libs : Libs} {fx : Oracle} {doc doc1 : SignupRecord}
    (h : preSave libs fx doc = .ok doc1) : doc1.email = doc.email := by
  unfold preSave at h
  by_cases he : doc.email.isEmpty = true
  · simp [he] at h; rw [← h]
  · by_cases hf : fx.emailHashFails = true
    · simp [he, hf] at h
    · simp [he, hf] at h; rw [← h]

theorem save_ok {libs : Libs} {fx : Oracle} {db db1 : Store} {doc : SignupRecord}
    (h : save libs fx db doc = .ok db1) :
    ∃ d, db1 = db ++ [d] ∧ d.email = doc.email ∧ ∀ r ∈ db, r.email ≠ d.email := by
  unfold save at h
  by_cases hv : schemaValid doc = true
  · simp only [hv, if_true] at h
    cases hp : preSave libs fx doc with
    | error e => simp [hp] at h
    | ok doc1 =>
      simp only [hp] at h
      obtain ⟨h1, h2⟩ := insert_ok h
      exact ⟨doc1, h1, preSave_email hp, h2⟩
  · simp [hv] at h

theorem signupHandler_db (libs : Libs) (cfg : Config) (fx : Oracle) (req : Request) (db : Store) :
    (signupHandler libs cfg fx req db).db = db ∨
    ∃ d, (signupHandler libs cfg fx req db).db = db ++ [d] ∧
      d.email = emailSetters libs req.email ∧ ∀ r ∈ db, r.email ≠ d.email := by
  unfold signupHandler
  cases findOne libs fx db req.email with
  | error e => left; rfl
  | ok found =>
    cases found with
    | some r => left; rfl
    | none =>
      cases hashIP libs cfg fx (jsOr req.ip req.remoteAddress) with
      | error e => left; rfl
      | ok ipHash =>
        cases hs : save libs fx db (construct libs fx req ipHash) with
        | error e => left; simp only [hs]; rfl
        | ok db1 =>
          right
          obtain ⟨d, h1, h2, h3⟩ := save_ok hs
          simp only [hs]
          exact ⟨d, h1, h2, h3⟩

theorem signupRoute_db (libs : Libs) (cfg : Config) (fx : Oracle) (req : Request)
    (st : ServerState) :
    (signupRoute libs cfg fx req st).1.db = st.db ∨
    ∃ d, (signupRoute libs cfg fx req st).1.db = st.db ++ [d] ∧ ∀ r ∈ st.db, r.email ≠ d.email := by
  unfold signupRoute
  rcases hl : rateLimiter cfg fx.now req st.limiter with ⟨t, _ | ⟨resp, line⟩⟩
  · rcases hv : validateEmail libs req with ⟨req1, _ | ⟨resp, line⟩⟩
    · rcases signupHandler_db libs cfg fx req1 st.db with h | ⟨d, h1, _, h3⟩
      · left; simpa using h
      · right; exact ⟨d, by simpa using h1, h3⟩
    · left; rfl
  · left; rfl

theorem reachable_nodup (libs : Libs) (cfg : Config) (st : ServerState)
    (h : Reachable libs cfg st) : (st.db.map (fun r => r.email)).Nodup := by
  induction h with
  | init t => simp
  | step st fx req _ ih =>
    rcases signupRoute_db libs cfg fx req st with h | ⟨d, h1, h2⟩
    · rw [h]; exact ih
    · rw [h1, List.map_append, List.nodup_append]
      refine ⟨ih, by simp, ?_⟩
      intro a ha hb
      simp only [List.map_cons, List.map_nil, List.mem_singleton] at hb
      obtain ⟨r, hr, rfl⟩ := List.mem_map.mp ha
      exact h2 r hr hb

/-! ## The handler -/

theorem find?_email_some (db : Store) (key : JSString) (h : ∃ r ∈ db, r.email = key) :
    ∃ r, db.find? (fun r => r.email == key) = some r := by
  obtain ⟨r, hr, he⟩ := h
  have : (db.find? (fun r => r.email == key)).isSome = true :=
    List.find?_isSome.mpr ⟨r, hr, by simp [he]⟩
  exact Option.isSome_iff_exists.mp this

theorem find?_email_none (db : Store) (key : JSString) (h : ∀ r ∈ db, r.email ≠ key) :
    db.find? (fun r => r.email == key) = none := by
  apply List.find?_eq_none.mpr
  intro r hr
  simpa using h r hr

theorem signupHandler_found (libs : Libs) (cfg : Config) (fx : Oracle) (req : Request) (db : Store)
    (hok : fx.lookupFails = false) (h : ∃ r ∈ db, r.email = emailSetters libs req.email) :
    signupHandler libs cfg fx req db = ⟨db, thankYou, [.findOne], []⟩ := by
  obtain ⟨r, hr⟩ := find?_email_some db _ h
  simp [signupHandler, findOne, hok, hr]

theorem signupHandler_lookup_failed (libs : Libs) (cfg : Config) (fx : Oracle) (req : Request)
    (db : Store) (hfail : fx.lookupFails = true) :
    signupHandler libs cfg fx req db = caught db [.findOne] .storageUnavailable := by
  simp [signupHandler, findOne, hfail]

theorem emailFormat_nonempty {s : JSString} (h : emailFormat.test s = true) : s ≠ [] := by
  rintro rfl
  revert h
  decide

theorem signupHandler_new (libs : Libs) (cfg : Config) (fx : Oracle) (req : Request) (db : Store)
    (hok : fx.lookupFails = false ∧ fx.hashIPFails = false ∧ fx.emailHashFails = false ∧
      fx.insertFails = false)
    (hfmt : emailFormat.test (emailSetters libs req.email) = true)
    (hlen : (emailSetters libs req.email).length ≤ 254)
    (hnew : ∀ r ∈ db, r.email ≠ emailSetters libs req.email)
    (hdigest : hashIP libs cfg fx (jsOr req.ip req.remoteAddress) ≠ .ok []) :
    ∃ d, signupHandler libs cfg fx req db =
        ⟨db ++ [d], signedUp, [.findOne, .hashIP, .construct, .save],
          [⟨"info", utf16 "New early access signup: " ++ req.email.take 3 ++ utf16 "***", none⟩]⟩ ∧
      d.email = emailSetters libs req.email := by
  obtain ⟨h1, h2, h3, h4⟩ := hok
  have hne := emailFormat_nonempty hfmt
  have hfind := find?_email_none db _ hnew
  have hany : db.any (fun r => r.email == emailSetters libs req.email) = false := by
    rw [Bool.eq_false_iff]
    intro hc
    obtain ⟨r, hr, he⟩ := List.any_eq_true.mp hc
    exact hnew r hr (by simpa using he)
  have hhash : ∃ ipHash, hashIP libs cfg fx (jsOr req.ip req.remoteAddress) = .ok ipHash ∧
      ipHash ≠ [] := by
    simp only [hashIP, h2, Bool.false_eq_true, if_false] at hdigest ⊢
    exact ⟨_, rfl, fun hc => hdigest (by rw [hc])⟩
  obtain ⟨ipHash, hh, hip⟩ := hhash
  have hvalid : schemaValid (construct libs fx req ipHash) = true := by
    simp [schemaValid, construct, hfmt, hlen, hne, hip]
  refine ⟨{ construct libs fx req ipHash with
      emailHash := some (libs.hash (emailSetters libs req.email) fx.emailSalt) }, ?_, rfl⟩
  have hsave : save libs fx db (construct libs fx req ipHash) = .ok (db ++ [{ construct libs fx req ipHash with
      emailHash := some (libs.hash (emailSetters libs req.email) fx.emailSalt) }]) := by
    have hpre : preSave libs fx (construct libs fx req ipHash) =
        .ok { construct libs fx req ipHash with
          emailHash := some (libs.hash (emailSetters libs req.email) fx.emailSalt) } := by
      simp [preSave, construct, hne, h3]
    unfold save
    rw [if_pos hvalid, hpre]
    simp [insert, h4, hany, construct]
  simp only [signupHandler, findOne, h1, Bool.false_eq_true, if_false, hfind, hh, hsave,
    Option.map_none']

theorem validateEmail_request (libs : Libs) (req : Request) :
    (validateEmail libs req).1 = { req with email := libs.normalizeEmail req.email } := by
  unfold validateEmail
  dsimp only
  split <;> rfl

theorem signupRoute_pass (libs : Libs) (cfg : Config) (fx : Oracle) (req : Request)
    (st : ServerState) (hpass : (rateLimiter cfg fx.now req st.limiter).2 = none)
    (hvalid : (validateEmail libs req).2 = none) :
    signupRoute libs cfg fx req st =
      (⟨(rateLimiter cfg fx.now req st.limiter).1,
          (signupHandler libs cfg fx { req with email := libs.normalizeEmail req.email } st.db).db⟩,
        { signupHandler libs cfg fx { req with email := libs.normalizeEmail req.email } st.db with
          ops := .validate ::
            (signupHandler libs cfg fx { req with email := libs.normalizeEmail req.email } st.db).ops }) := by
  have hreq := validateEmail_request libs req
  unfold signupRoute
  rcases hl : rateLimiter cfg fx.now req st.limiter with ⟨t, _ | ⟨resp, line⟩⟩
  · rcases hv : validateEmail libs req with ⟨req1, _ | ⟨resp, line⟩⟩
    · rw [hv] at hreq
      simp only at hreq
      subst hreq
      rfl
    · rw [hv] at hvalid; simp at hvalid
  · rw [hl] at hpass; simp at hpass

theorem validateEmail_rejects (libs : Libs) (req : Request)
    (h : (validationChain libs req.email).2 ≠ []) :
    validateEmail libs req =
      ({ req with email := libs.normalizeEmail req.email },
        some (invalidEmail,
          ⟨"warn", utf16 "Validation failed for email: " ++ libs.normalizeEmail req.email, none⟩)) := by
  have hne : ¬ (validationChain libs req.email).2.isEmpty = true := by
    simpa [List.isEmpty_iff] using h
  unfold validateEmail
  dsimp only
  rw [if_neg hne]
  rfl

theorem validationChain_fails (libs : Libs) (raw : JSString)
    (hbad : libs.isEmail raw = false ∨ libs.isLength (libs.normalizeEmail raw) 254 = false ∨
      ∃ p ∈ suspiciousPatterns, p.test (libs.normalizeEmail raw) = true) :
    (validationChain libs raw).2 ≠ [] := by
  unfold validationChain
  dsimp only
  rcases hbad with h | h | ⟨p, hp, ht⟩
  · simp [h]
  · simp [h]
  · simp [custom_error_of_test _ p hp ht]

theorem steps_eq_handler (libs : Libs) (cfg : Config) (fx : Oracle) (req : Request) (db : Store) :
    runSchedule libs cfg [0, 0, 0] ([.lookup req fx], db) =
      ([.responded (signupHandler libs cfg fx req db).response],
        (signupHandler libs cfg fx req db).db) := by
  simp only [runSchedule, List.get?, Task.step, signupHandler, List.set]
  cases findOne libs fx db req.email with
  | error e => rfl
  | ok found =>
    cases found with
    | some r => rfl
    | none =>
      simp only [List.get?, Task.step]
      cases hashIP libs cfg fx (jsOr req.ip req.remoteAddress) with
      | error e => rfl
      | ok ipHash =>
        simp only [List.get?, Task.step, List.set]
        cases save libs fx db (construct libs fx req ipHash) with
        | error e => rfl
        | ok db1 => rfl

/-! ## The signup route -/

/-- C1 fails on the code: the same request is answered with status 201 and the
message `Successfully signed up for early access!` when the email is new, and
with status 200 and `Thank you for your interest!` when it has a record. -/
theorem new_and_duplicate_responses_differ :
    (signupRoute plainLibs defaultConfig (calm 0) (plainRequest "alice@example.com")
        ⟨fun _ => none, []⟩).2.response =
      ⟨201, [("success", .bool true),
        ("message", .str "Successfully signed up for early access!")]⟩ ∧
    (signupRoute plainLibs defaultConfig (calm 1) (plainRequest "alice@example.com")
        (signupRoute plainLibs defaultConfig (calm 0) (plainRequest "alice@example.com")
          ⟨fun _ => none, []⟩).1).2.response =
      ⟨200, [("success", .bool true), ("message", .str "Thank you for your interest!")]⟩ := by
  decide

theorem signupHandler_refused (libs : Libs) (cfg : Config) (fx : Oracle) (req : Request)
    (db : Store) (hfmt : emailFormat.test (emailSetters libs req.email) = false)
    (hnew : ∀ r ∈ db, r.email ≠ emailSetters libs req.email) :
    (signupHandler libs cfg fx req db).response = errorOccurred ∧
    (signupHandler libs cfg fx req db).db = db := by
  have hfind := find?_email_none db _ hnew
  cases h1 : fx.lookupFails with
  | true => simp [signupHandler, findOne, h1, caught]
  | false =>
    cases hh : hashIP libs cfg fx (jsOr req.ip req.remoteAddress) with
    | error e => simp [signupHandler, findOne, h1, hfind, hh, caught]
    | ok ipHash =>
      have hsave : save libs fx db (construct libs fx req ipHash) = .error .validationError := by
        simp [save, schemaValid, construct, hfmt]
      simp [signupHandler, findOne, h1, hfind, hh, hsave, caught]

/-- C2 as stated fails: an email that the limiter and the validator let through
is not thereby accepted by the schema. Whenever the pattern of the schema refuses
the stored form of such an email and the collection has no record for it, the
request is answered with the 500 error response and no record is created; so it
is for `josé@example.com` on an empty collection, with nothing failing, which
validator.js accepts (a UTF-8 local part) and the pattern refuses. -/
theorem validated_email_refused_by_schema :
    (∀ (libs : Libs) (cfg : Config) (fx : Oracle) (req : Request) (st : ServerState),
      (rateLimiter cfg fx.now req st.limiter).2 = none →
      (validateEmail libs req).2 = none →
      emailFormat.test (emailSetters libs (libs.normalizeEmail req.email)) = false →
      (∀ r ∈ st.db, r.email ≠ emailSetters libs (libs.normalizeEmail req.email)) →
      (signupRoute libs cfg fx req st).2.response = errorOccurred ∧
      (signupRoute libs cfg fx req st).2.response.isSuccess = false ∧
      (signupRoute libs cfg fx req st).1.db = st.db) ∧
    (rateLimiter defaultConfig (calm 0).now (plainRequest "josé@example.com")
      (fun _ => none)).2 = none ∧
    (validateEmail intlLibs (plainRequest "josé@example.com")).2 = none ∧
    (signupRoute intlLibs defaultConfig (calm 0) (plainRequest "josé@example.com")
        ⟨fun _ => none, []⟩).2.response =
      ⟨500, [("success", .bool false), ("message", .str "An error occurred. Please try again.")]⟩ ∧
    (signupRoute intlLibs defaultConfig (calm 0) (plainRequest "josé@example.com")
        ⟨fun _ => none, []⟩).1.db = [] := by
  refine ⟨?_, by decide, by decide, by decide, by decide⟩
  intro libs cfg fx req st hpass hvalid hfmt hnew
  have h := signupRoute_pass libs cfg fx req st hpass hvalid
  obtain ⟨hr, hd⟩ := signupHandler_refused libs cfg fx
    { req with email := libs.normalizeEmail req.email } st.db hfmt hnew
  rw [h]
  exact ⟨hr, by simp only [hr]; rfl, hd⟩

/-- C2, amended: from a collection with no record for the email of a request
that the limiter and the validator let through and whose email the schema
accepts, with no failure of the database or of bcrypt, handling the request adds
exactly one record, for that email, and answers with a success; a second request
whose email has the same stored form adds nothing and answers with a success. In
every state reached by handling requests one after the other, no two records
have the same email. -/
theorem signup_once_per_email (libs : Libs) (cfg : Config) (fx1 fx2 : Oracle)
    (req1 req2 : Request) (st : ServerState)
    (hpass1 : (rateLimiter cfg fx1.now req1 st.limiter).2 = none)
    (hvalid1 : (validateEmail libs req1).2 = none)
    (hfmt : emailFormat.test (emailSetters libs (libs.normalizeEmail req1.email)) = true)
    (hlen : (emailSetters libs (libs.normalizeEmail req1.email)).length ≤ 254)
    (hnew : ∀ r ∈ st.db, r.email ≠ emailSetters libs (libs.normalizeEmail req1.email))
    (hok1 : fx1.lookupFails = false ∧ fx1.hashIPFails = false ∧ fx1.emailHashFails = false ∧
      fx1.insertFails = false)
    (hdigest : hashIP libs cfg fx1 (jsOr req1.ip req1.remoteAddress) ≠ .ok [])
    (hpass2 : (rateLimiter cfg fx2.now req2 (signupRoute libs cfg fx1 req1 st).1.limiter).2 = none)
    (hvalid2 : (validateEmail libs req2).2 = none)
    (hsame : emailSetters libs (libs.normalizeEmail req2.email) =
      emailSetters libs (libs.normalizeEmail req1.email))
    (hok2 : fx2.lookupFails = false) :
    ((signupRoute libs cfg fx1 req1 st).2.response = signedUp ∧
      (signupRoute libs cfg fx1 req1 st).2.response.isSuccess = true ∧
      ∃ d, (signupRoute libs cfg fx1 req1 st).1.db = st.db ++ [d] ∧
        d.email = emailSetters libs (libs.normalizeEmail req1.email)) ∧
    ((signupRoute libs cfg fx2 req2 (signupRoute libs cfg fx1 req1 st).1).2.response = thankYou ∧
      (signupRoute libs cfg fx2 req2
        (signupRoute libs cfg fx1 req1 st).1).2.response.isSuccess = true ∧
      (signupRoute libs cfg fx2 req2 (signupRoute libs cfg fx1 req1 st).1).1.db =
        (signupRoute libs cfg fx1 req1 st).1.db) ∧
    ∀ s, Reachable libs cfg s → (s.db.map (fun r => r.email)).Nodup := by
  obtain ⟨d, hd, hde⟩ := signupHandler_new libs cfg fx1
    { req1 with email := libs.normalizeEmail req1.email } st.db hok1 hfmt hlen hnew hdigest
  have h1 := signupRoute_pass libs cfg fx1 req1 st hpass1 hvalid1
  rw [hd] at h1
  have hdb1 : (signupRoute libs cfg fx1 req1 st).1.db = st.db ++ [d] := by rw [h1]
  have hfound := signupHandler_found libs cfg fx2
    { req2 with email := libs.normalizeEmail req2.email } (signupRoute libs cfg fx1 req1 st).1.db
    hok2 ⟨d, by rw [hdb1]; simp, by rw [hde]; exact hsame.symm⟩
  have h2 := signupRoute_pass libs cfg fx2 req2 (signupRoute libs cfg fx1 req1 st).1 hpass2 hvalid2
  rw [hfound] at h2
  refine ⟨⟨by rw [h1], by rw [h1]; rfl, d, hdb1, hde⟩, ⟨by rw [h2], by rw [h2]; rfl, by rw [h2]⟩,
    fun s hs => reachable_nodup libs cfg s hs⟩

/-- The amended C2 for two requests with `alice@example.com`, at times 0 and 1,
on an empty collection. -/
theorem signup_once_per_email_witness :
    (validateEmail plainLibs (plainRequest "alice@example.com")).2 = none ∧
    emailFormat.test (emailSetters plainLibs
      (plainLibs.normalizeEmail (plainRequest "alice@example.com").email)) = true ∧
    (signupRoute plainLibs defaultConfig (calm 0) (plainRequest "alice@example.com")
        ⟨fun _ => none, []⟩).2.response.isSuccess = true ∧
    (signupRoute plainLibs defaultConfig (calm 1) (plainRequest "alice@example.com")
        (signupRoute plainLibs defaultConfig (calm 0) (plainRequest "alice@example.com")
          ⟨fun _ => none, []⟩).1).2.response.isSuccess = true :=
  have h := signup_once_per_email plainLibs defaultConfig (calm 0) (calm 1)
    (plainRequest "alice@example.com") (plainRequest "alice@example.com") ⟨fun _ => none, []⟩
    (by decide) (by decide) (by decide) (by decide) (by intro r hr; cases hr) (by decide)
    (by decide) (by decide) (by decide) (by decide) (by decide)
  ⟨by decide, by decide, h.1.2.1, h.2.1.2.1⟩

/-- C3 fails on the code: a save that meets a record inserted after the lookup
(here the record of `alice@example.com`) throws the duplicate-key error, and the
handler answers with the 500 error response, not with the success response of
the duplicate path. -/
theorem duplicate_key_answers_error :
    save plainLibs (calm 1)
        (signupHandler plainLibs defaultConfig (calm 0) (plainRequest "alice@example.com") []).db
        (construct plainLibs (calm 1) (plainRequest "alice@example.com") (utf16 "$2b$10$digest")) =
      .error (.duplicateKey (utf16 "alice@example.com")) ∧
    (Task.step plainLibs defaultConfig
        (.saving (plainRequest "alice@example.com") (calm 1) (utf16 "$2b$10$digest"))
        (signupHandler plainLibs defaultConfig (calm 0) (plainRequest "alice@example.com") []).db).1 =
      .responded ⟨500, [("success", .bool false),
        ("message", .str "An error occurred. Please try again.")]⟩ := by
  decide

/-- C4 fails on the code: two requests for `alice@example.com` interleaved at
every await (lookup, lookup, hash, hash, save, save) leave one record, and the
second caller receives the 500 error response. -/
theorem concurrent_duplicate_gets_error :
    ((runSchedule plainLibs defaultConfig [0, 1, 0, 1, 0, 1]
        ([.lookup (plainRequest "alice@example.com") (calm 0),
          .lookup (plainRequest "alice@example.com") (calm 0)], [])).1 =
      [.responded signedUp, .responded errorOccurred]) ∧
    (runSchedule plainLibs defaultConfig [0, 1, 0, 1, 0, 1]
        ([.lookup (plainRequest "alice@example.com") (calm 0),
          .lookup (plainRequest "alice@example.com") (calm 0)], [])).2.length = 1 ∧
    errorOccurred.isSuccess = false := by
  decide

/-- C5: when a record of the collection has the stored form of the request's
email, the handler leaves the collection as it was and runs the lookup only (no
IP digest, no record constructed, no save); when the lookup itself does not
fail, the response is the 200 success response. -/
theorem duplicate_signup_leaves_store (libs : Libs) (cfg : Config) (fx : Oracle) (req : Request)
    (db : Store) (h : ∃ r ∈ db, r.email = emailSetters libs req.email) :
    (signupHandler libs cfg fx req db).db = db ∧
    (signupHandler libs cfg fx req db).ops = [.findOne] ∧
    (fx.lookupFails = false →
      (signupHandler libs cfg fx req db).response =
        ⟨200, [("success", .bool true), ("message", .str "Thank you for your interest!")]⟩) := by
  cases hf : fx.lookupFails with
  | false =>
    rw [signupHandler_found libs cfg fx req db hf h]
    exact ⟨rfl, rfl, fun _ => rfl⟩
  | true =>
    rw [signupHandler_lookup_failed libs cfg fx req db hf]
    exact ⟨rfl, rfl, fun hc => by cases hc⟩

/-- C5 for a second request with `alice@example.com`. -/
theorem duplicate_signup_leaves_store_witness :
    (signupHandler plainLibs defaultConfig (calm 1) (plainRequest "alice@example.com")
        (signupHandler plainLibs defaultConfig (calm 0) (plainRequest "alice@example.com") []).db).db =
      (signupHandler plainLibs defaultConfig (calm 0) (plainRequest "alice@example.com") []).db ∧
    (signupHandler plainLibs defaultConfig (calm 0) (plainRequest "alice@example.com") []).db ≠ [] :=
  ⟨(duplicate_signup_leaves_store plainLibs defaultConfig (calm 1)
      (plainRequest "alice@example.com")
      (signupHandler plainLibs defaultConfig (calm 0) (plainRequest "alice@example.com") []).db
      (by decide)).1, by decide⟩

/-- C8: when the request passes the limiter and its email fails a rule of the
chain (`isEmail` on the submitted value; `isLength` max 254, the repeated
characters pattern, the test-email pattern or the missing-TLD pattern on the
normalized value), the validator answers 400 with the body
`success: false, message: 'Invalid email format'`, whichever rule failed; the
handler does not run and the collection is unchanged. -/
theorem invalid_email_rejected (libs : Libs) (cfg : Config) (fx : Oracle) (req : Request)
    (st : ServerState) (hpass : (rateLimiter cfg fx.now req st.limiter).2 = none)
    (hbad : libs.isEmail req.email = false ∨
      libs.isLength (libs.normalizeEmail req.email) 254 = false ∨
      repeatedCharacters.test (libs.normalizeEmail req.email) = true ∨
      testEmails.test (libs.normalizeEmail req.email) = true ∨
      missingTLD.test (libs.normalizeEmail req.email) = true) :
    (validateEmail libs req).2.map Prod.fst =
      some ⟨400, [("success", .bool false), ("message", .str "Invalid email format")]⟩ ∧
    (signupRoute libs cfg fx req st).2.response =
      ⟨400, [("success", .bool false), ("message", .str "Invalid email format")]⟩ ∧
    (signupRoute libs cfg fx req st).2.ops = [.validate] ∧
    (signupRoute libs cfg fx req st).1.db = st.db := by
  have hchain : (validationChain libs req.email).2 ≠ [] := by
    apply validationChain_fails
    rcases hbad with h | h | h | h | h
    · exact Or.inl h
    · exact Or.inr (Or.inl h)
    · exact Or.inr (Or.inr ⟨repeatedCharacters, by simp [suspiciousPatterns], h⟩)
    · exact Or.inr (Or.inr ⟨testEmails, by simp [suspiciousPatterns], h⟩)
    · exact Or.inr (Or.inr ⟨missingTLD, by simp [suspiciousPatterns], h⟩)
  have hv := validateEmail_rejects libs req hchain
  refine ⟨by rw [hv]; rfl, ?_⟩
  unfold signupRoute
  rcases hl : rateLimiter cfg fx.now req st.limiter with ⟨t, _ | ⟨resp, line⟩⟩
  · simp [hv, invalidEmail]
  · rw [hl] at hpass; simp at hpass

/-- C8 at `not-an-email`, on an empty collection. -/
theorem invalid_email_rejected_witness :
    plainLibs.isEmail (plainRequest "not-an-email").email = false ∧
    (signupRoute plainLibs defaultConfig (calm 0) (plainRequest "not-an-email")
        ⟨fun _ => none, []⟩).2.response =
      ⟨400, [("success", .bool false), ("message", .str "Invalid email format")]⟩ :=
  ⟨by decide,
    (invalid_email_rejected plainLibs defaultConfig (calm 0) (plainRequest "not-an-email")
      ⟨fun _ => none, []⟩ (by decide) (Or.inl (by decide))).2.1⟩

/-! ## The placeholder pattern -/

theorem Matcher.mem_lit : ∀ (w r : JSString), r ∈ Matcher.lit w (w ++ r) := by
  intro w
  induction w with
  | nil => intro r; simp [Matcher.lit, Matcher.eps]
  | cons u w ih =>
    intro r
    exact Matcher.mem_seq.mpr ⟨w ++ r, by simp [Matcher.unit_cons], ih r⟩

/-- C11: every value that contains the text `test@test` at any position makes
the custom check throw `Invalid email format`; `contest@testing.com` is one. -/
theorem custom_rejects_test_at_test (pre post : JSString) :
    custom (pre ++ utf16 "test@test" ++ post) = .error "Invalid email format" ∧
    custom (utf16 "contest@testing.com") = .error "Invalid email format" := by
  refine ⟨?_, by decide⟩
  apply custom_error_of_test _ testEmails (by simp [suspiciousPatterns])
  rw [List.append_assoc]
  apply RegExp.test_search rfl
  exact List.ne_nil_of_mem (Matcher.mem_lit (utf16 "test@test") post)

/-! ## The setters of `email` -/

theorem dropWhile_all_append (p : CodeUnit → Bool) (l : JSString)
    (hl : ∀ c, l.head? = some c → p c = false) :
    ∀ ws : JSString, (∀ c ∈ ws, p c = true) → (ws ++ l).dropWhile p = l := by
  intro ws
  induction ws with
  | nil =>
    intro _
    cases l with
    | nil => rfl
    | cons c l => simp [List.dropWhile, hl c rfl]
  | cons w ws ih =>
    intro h
    have hw : p w = true := h w (List.mem_cons_self _ _)
    simp only [List.cons_append, List.dropWhile, hw]
    exact ih (fun c hc => h c (List.mem_cons_of_mem _ hc))

theorem trim_surrounded (x ws1 ws2 : JSString)
    (h1 : ∀ c ∈ ws1, isTrimmable c = true) (h2 : ∀ c ∈ ws2, isTrimmable c = true)
    (hhead : ∀ c, x.head? = some c → isTrimmable c = false)
    (hlast : ∀ c, x.getLast? = some c → isTrimmable c = false) :
    trim (ws1 ++ x ++ ws2) = x := by
  unfold trim
  rw [List.append_assoc]
  by_cases hx : x = []
  · subst hx
    have hnil : ∀ c, ([] : JSString).head? = some c → isTrimmable c = false := by
      intro c hc; cases hc
    have hall : ∀ c ∈ ws1 ++ ws2, isTrimmable c = true := by
      intro c hc
      rcases List.mem_append.mp hc with h | h
      · exact h1 c h
      · exact h2 c h
    have := dropWhile_all_append isTrimmable [] hnil (ws1 ++ ws2) hall
    simp only [List.append_nil] at this
    simp [this]
  · have hfront : ∀ c, (x ++ ws2).head? = some c → isTrimmable c = false := by
      intro c hc
      cases x with
      | nil => exact absurd rfl hx
      | cons a x => exact hhead c (by simpa using hc)
    rw [dropWhile_all_append isTrimmable (x ++ ws2) hfront ws1 h1, List.reverse_append]
    have hback : ∀ c, x.reverse.head? = some c → isTrimmable c = false := by
      intro c hc
      exact hlast c (by simpa [List.head?_reverse] using hc)
    rw [dropWhile_all_append isTrimmable x.reverse hback ws2.reverse
      (fun c hc => h2 c (List.mem_reverse.mp hc)), List.reverse_reverse]

/-- C12: two emails that differ only in letter case (they have the same
`toLowerCase`) and in surrounding whitespace (each is a text with no whitespace
at its ends, wrapped in any whitespace) get the same stored key from the setters
of the path `email`. -/
theorem setters_ignore_case_and_padding (libs : Libs) (x y ws1 ws2 ws3 ws4 : JSString)
    (hws : ∀ c ∈ ws1 ++ ws2 ++ ws3 ++ ws4, isTrimmable c = true)
    (hx : ∀ c ∈ x.head?.toList ++ x.getLast?.toList, isTrimmable c = false)
    (hy : ∀ c ∈ y.head?.toList ++ y.getLast?.toList, isTrimmable c = false)
    (hcase : toLowerCase libs.unicodeLower x = toLowerCase libs.unicodeLower y) :
    emailSetters libs (ws1 ++ x ++ ws2) = emailSetters libs (ws3 ++ y ++ ws4) := by
  have tx := trim_surrounded x ws1 ws2 (fun c hc => hws c (by simp [hc]))
    (fun c hc => hws c (by simp [hc])) (fun c hc => hx c (by simp [hc]))
    (fun c hc => hx c (by simp [hc]))
  have ty := trim_surrounded y ws3 ws4 (fun c hc => hws c (by simp [hc]))
    (fun c hc => hws c (by simp [hc])) (fun c hc => hy c (by simp [hc]))
    (fun c hc => hy c (by simp [hc]))
  simp only [emailSetters, tx, ty, hcase]

/-- C12 at `Foo@Bar.com` and ` foo@bar.com ` (32 is the space): both get the
key `foo@bar.com`, and a lookup of the second finds the record of the first. -/
theorem setters_ignore_case_and_padding_witness :
    emailSetters plainLibs (utf16 "Foo@Bar.com") = utf16 "foo@bar.com" ∧
    emailSetters plainLibs (utf16 " foo@bar.com ") = utf16 "foo@bar.com" ∧
    (findOne plainLibs (calm 1)
        (signupHandler plainLibs defaultConfig (calm 0) (plainRequest "Foo@Bar.com") []).db
        (utf16 " foo@bar.com ")).toOption.join.isSome = true ∧
    emailSetters plainLibs ([] ++ utf16 "Foo@Bar.com" ++ []) =
      emailSetters plainLibs ([32] ++ utf16 "foo@bar.com" ++ [32]) :=
  ⟨by decide, by decide, by decide,
    setters_ignore_case_and_padding plainLibs (utf16 "Foo@Bar.com") (utf16 "foo@bar.com")
      [] [] [32] [32] (by decide) (by decide) (by decide) (by decide)⟩

/-! ## The schema pattern: what a match tells -/

theorem Matcher.mem_cls {p : CodeUnit → Bool} {s r : JSString} :
    r ∈ Matcher.cls p s ↔ ∃ c, s = c :: r ∧ p c = true := by
  cases s with
  | nil => simp [Matcher.cls]
  | cons c t =>
    by_cases hc : p c = true
    · simp only [Matcher.cls, hc, if_true, List.mem_singleton]
      constructor
      · rintro rfl; exact ⟨c, rfl, hc⟩
      · rintro ⟨d, hd, _⟩
        cases hd; rfl
    · simp only [Matcher.cls, hc, Bool.false_eq_true, if_false, List.not_mem_nil, false_iff]
      rintro ⟨d, hd, hp⟩
      cases hd
      exact hc hp

theorem Matcher.mem_unit {u : CodeUnit} {s r : JSString} :
    r ∈ Matcher.unit u s ↔ s = u :: r := by
  unfold Matcher.unit
  rw [Matcher.mem_cls]
  constructor
  · rintro ⟨c, rfl, hc⟩
    have : c = u := by simpa using hc
    rw [this]
  · rintro rfl
    exact ⟨u, rfl, by simp⟩

theorem Matcher.mem_upTo {a : Matcher} {n : Nat} {s r : JSString} :
    r ∈ Matcher.upTo a (n + 1) s ↔ (∃ m, m ∈ a s ∧ r ∈ Matcher.upTo a n m) ∨ r = s := by
  simp [Matcher.upTo, List.mem_flatMap]

theorem Matcher.upTo_cls_sound (p : CodeUnit → Bool) :
    ∀ (n : Nat) (s r : JSString), r ∈ Matcher.upTo (Matcher.cls p) n s →
      ∃ run, s = run ++ r ∧ run.length ≤ n ∧ ∀ c ∈ run, p c = true := by
  intro n
  induction n with
  | zero =>
    intro s r h
    have : r = s := by simpa [Matcher.upTo] using h
    exact ⟨[], by simp [this], by simp, by simp⟩
  | succ n ih =>
    intro s r h
    rcases Matcher.mem_upTo.mp h with ⟨m, hm, hr⟩ | rfl
    · obtain ⟨c, rfl, hc⟩ := Matcher.mem_cls.mp hm
      obtain ⟨run, rfl, hlen, hall⟩ := ih m r hr
      refine ⟨c :: run, rfl, by simpa using hlen, ?_⟩
      intro d hd
      rcases List.mem_cons.mp hd with rfl | hd
      · exact hc
      · exact hall d hd
    · exact ⟨[], rfl, by simp, by simp⟩

theorem Matcher.plus_cls_sound (p : CodeUnit → Bool) (s r : JSString)
    (h : r ∈ Matcher.plus (Matcher.cls p) s) :
    ∃ run, run ≠ [] ∧ s = run ++ r ∧ ∀ c ∈ run, p c = true := by
  obtain ⟨m, hm, hr⟩ := Matcher.mem_seq.mp h
  obtain ⟨c, rfl, hc⟩ := Matcher.mem_cls.mp hm
  obtain ⟨run, rfl, _, hall⟩ := Matcher.upTo_cls_sound p _ m r hr
  refine ⟨c :: run, by simp, rfl, ?_⟩
  intro d hd
  rcases List.mem_cons.mp hd with rfl | hd
  · exact hc
  · exact hall d hd

theorem Matcher.mem_eol {s r : JSString} : r ∈ Matcher.eol s ↔ s = [] ∧ r = [] := by
  cases s <;> simp [Matcher.eol]

theorem isAlnum_ne_hyphen {c : CodeUnit} (h : isAlnum c = true) : c ≠ 45 := by
  rintro rfl
  revert h
  decide

theorem isAlnumHyphen_iff {c : CodeUnit} :
    isAlnumHyphen c = true ↔ isAlnum c = true ∨ c = 45 := by
  simp [isAlnumHyphen]

theorem domainLabel_sound (s r : JSString) (h : r ∈ domainLabel s) :
    ∃ l, s = l ++ r ∧ IsLabel l := by
  obtain ⟨m, hm, hr⟩ := Matcher.mem_seq.mp h
  obtain ⟨c, rfl, hc⟩ := Matcher.mem_cls.mp hm
  rcases Matcher.mem_upTo.mp hr with ⟨m2, hm2, hr2⟩ | rfl
  · have hr3 : r = m2 := by simpa [Matcher.upTo] using hr2
    subst hr3
    obtain ⟨m3, hm3, hlast⟩ := Matcher.mem_seq.mp hm2
    obtain ⟨d, rfl, hd⟩ := Matcher.mem_cls.mp hlast
    obtain ⟨mid, rfl, hlen, hall⟩ := Matcher.upTo_cls_sound isAlnumHyphen 61 m _ hm3
    refine ⟨c :: (mid ++ [d]), by simp, by simp, by simp; omega, ?_, ?_, ?_⟩
    · intro e he
      rcases List.mem_cons.mp he with rfl | he
      · exact Or.inl hc
      · rcases List.mem_append.mp he with he | he
        · exact isAlnumHyphen_iff.mp (hall e he)
        · rw [List.mem_singleton.mp he]; exact Or.inl hd
    · simpa using isAlnum_ne_hyphen hc
    · have : (c :: (mid ++ [d])).getLast? = some d := by
        rw [← List.cons_append, List.getLast?_append]
        simp
      rw [this]
      simpa using isAlnum_ne_hyphen hd
  · refine ⟨[c], rfl, by simp, by simp, ?_, ?_, ?_⟩
    · intro e he
      rw [List.mem_singleton.mp he]; exact Or.inl hc
    · simpa using isAlnum_ne_hyphen hc
    · simpa using isAlnum_ne_hyphen hc

theorem dotted_cons (l : JSString) :
    ∀ (ls : List JSString), dotted (l :: ls) = l ++ (ls.map (fun x => 46 :: x)).flatten := by
  intro ls
  induction ls generalizing l with
  | nil => simp [dotted, List.intercalate]
  | cons l1 ls ih =>
    have h := ih l1
    simp only [dotted, List.intercalate] at h ⊢
    simp [List.intersperse, h]

theorem moreLabels_sound :
    ∀ (n : Nat) (s r : JSString),
      r ∈ Matcher.upTo (Matcher.seq (Matcher.unit 46) domainLabel) n s →
      ∃ ls : List JSString, s = (ls.map (fun x => 46 :: x)).flatten ++ r ∧ ∀ l ∈ ls, IsLabel l := by
  intro n
  induction n with
  | zero =>
    intro s r h
    have : r = s := by simpa [Matcher.upTo] using h
    exact ⟨[], by simp [this], by simp⟩
  | succ n ih =>
    intro s r h
    rcases Matcher.mem_upTo.mp h with ⟨m, hm, hr⟩ | rfl
    · obtain ⟨m1, hm1, hlab⟩ := Matcher.mem_seq.mp hm
      have hs := Matcher.mem_unit.mp hm1
      obtain ⟨l, rfl, hl⟩ := domainLabel_sound m1 m hlab
      obtain ⟨ls, rfl, hls⟩ := ih m r hr
      refine ⟨l :: ls, by simp [hs], ?_⟩
      intro x hx
      rcases List.mem_cons.mp hx with rfl | hx
      · exact hl
      · exact hls x hx
    · exact ⟨[], by simp, by simp⟩

theorem emailFormat_sound (s : JSString) (h : emailFormat.test s = true) :
    ∃ (loc : JSString) (labels : List JSString),
      s = loc ++ 64 :: dotted labels ∧ loc ≠ [] ∧ (∀ c ∈ loc, isLocalChar c = true) ∧
      labels ≠ [] ∧ ∀ l ∈ labels, IsLabel l := by
  have hne : emailFormat.body s ≠ [] := by
    intro hnil
    simp [RegExp.test, emailFormat, hnil] at h
    simp [emailFormat] at hnil
    simp [hnil] at h
  obtain ⟨r, hr⟩ := List.exists_mem_of_ne_nil _ hne
  simp only [emailFormat] at hr
  obtain ⟨m1, hm1, hr1⟩ := Matcher.mem_seq.mp hr
  obtain ⟨loc, hloc, rfl, hall⟩ := Matcher.plus_cls_sound isLocalChar s m1 hm1
  obtain ⟨m2, hm2, hr2⟩ := Matcher.mem_seq.mp hr1
  have hat := Matcher.mem_unit.mp hm2
  obtain ⟨m3, hm3, hr3⟩ := Matcher.mem_seq.mp hr2
  obtain ⟨l0, rfl, hl0⟩ := domainLabel_sound m2 m3 hm3
  obtain ⟨m4, hm4, hr4⟩ := Matcher.mem_seq.mp hr3
  obtain ⟨rfl, rfl⟩ := Matcher.mem_eol.mp hr4
  obtain ⟨ls, hls, hlabels⟩ := moreLabels_sound _ m3 [] hm4
  refine ⟨loc, l0 :: ls, ?_, hloc, hall, by simp, ?_⟩
  · rw [hat, dotted_cons, hls]
    simp
  · intro x hx
    rcases List.mem_cons.mp hx with rfl | hx
    · exact hl0
    · exact hlabels x hx

theorem mem_dotted {c : CodeUnit} {labels : List JSString} (h : c ∈ dotted labels) :
    c = 46 ∨ ∃ l ∈ labels, c ∈ l := by
  cases labels with
  | nil => simp [dotted, List.intercalate] at h
  | cons l ls =>
    rw [dotted_cons] at h
    rcases List.mem_append.mp h with h | h
    · exact Or.inr ⟨l, List.mem_cons_self _ _, h⟩
    · obtain ⟨piece, hpiece, hc⟩ := List.mem_flatten.mp h
      obtain ⟨x, hx, rfl⟩ := List.mem_map.mp hpiece
      rcases List.mem_cons.mp hc with rfl | hc
      · exact Or.inl rfl
      · exact Or.inr ⟨x, List.mem_cons_of_mem _ hx, hc⟩

theorem IsLabel.no_at_no_dot {l : JSString} (hl : IsLabel l) : l ≠ [] ∧ 46 ∉ l ∧ 64 ∉ l := by
  obtain ⟨h1, _, hall, _, _⟩ := hl
  refine ⟨?_, ?_, ?_⟩
  · rintro rfl; simp at h1
  · intro h
    rcases hall 46 h with h | h
    · revert h; decide
    · revert h; decide
  · intro h
    rcases hall 64 h with h | h
    · revert h; decide
    · revert h; decide

theorem isLocalChar_no_at {loc : JSString} (h : ∀ c ∈ loc, isLocalChar c = true) : 64 ∉ loc := by
  intro hc
  have := h 64 hc
  revert this
  decide

/-- C14 as stated fails: the schema pattern accepts `a@b`, whose part after the
`@` has no dot (46). -/
theorem emailFormat_accepts_dotless_domain :
    emailFormat.test (utf16 "a@b") = true ∧ utf16 "a@b" = utf16 "a" ++ 64 :: utf16 "b" ∧
    46 ∉ utf16 "b" := by
  decide

/-- C14, amended: every email the schema pattern accepts is a non-empty local
part free of `@` (64), one `@`, and a domain of one or more labels separated by
dots (46), each label non-empty and free of dots; a dot is not required. -/
theorem emailFormat_local_at_labels (s : JSString) (h : emailFormat.test s = true) :
    ∃ (loc : JSString) (labels : List JSString),
      s = loc ++ 64 :: dotted labels ∧ loc ≠ [] ∧ 64 ∉ loc ∧
      labels ≠ [] ∧ ∀ l ∈ labels, l ≠ [] ∧ 46 ∉ l := by
  obtain ⟨loc, labels, hs, hloc, hall, hne, hlabels⟩ := emailFormat_sound s h
  exact ⟨loc, labels, hs, hloc, isLocalChar_no_at hall, hne,
    fun l hl => ⟨(hlabels l hl).no_at_no_dot.1, (hlabels l hl).no_at_no_dot.2.1⟩⟩

/-- The amended C14 at `alice@example.com`. -/
theorem emailFormat_local_at_labels_witness :
    emailFormat.test (utf16 "alice@example.com") = true ∧
    ∃ (loc : JSString) (labels : List JSString),
      utf16 "alice@example.com" = loc ++ 64 :: dotted labels ∧ loc ≠ [] ∧ 64 ∉ loc ∧
      labels ≠ [] ∧ ∀ l ∈ labels, l ≠ [] ∧ 46 ∉ l :=
  ⟨by decide, emailFormat_local_at_labels (utf16 "alice@example.com") (by decide)⟩

/-- C15: a string the schema pattern accepts is, as a whole, a non-empty local
part of characters of the local class, then `@` (64), then a domain of one or
more labels separated by dots, each label 1 to 63 long, of letters, digits and
hyphens, with no hyphen first or last; it holds exactly one `@`. -/
theorem emailFormat_whole_string (s : JSString) (h : emailFormat.test s = true) :
    (∃ (loc : JSString) (labels : List JSString),
      s = loc ++ 64 :: dotted labels ∧ loc ≠ [] ∧ (∀ c ∈ loc, isLocalChar c = true) ∧
      labels ≠ [] ∧ ∀ l ∈ labels, IsLabel l) ∧
    s.count 64 = 1 := by
  obtain ⟨loc, labels, hs, hloc, hall, hne, hlabels⟩ := emailFormat_sound s h
  refine ⟨⟨loc, labels, hs, hloc, hall, hne, hlabels⟩, ?_⟩
  have h1 : loc.count 64 = 0 := List.count_eq_zero.mpr (isLocalChar_no_at hall)
  have h2 : (dotted labels).count 64 = 0 := by
    apply List.count_eq_zero.mpr
    intro hc
    rcases mem_dotted hc with h46 | ⟨l, hl, hcl⟩
    · revert h46; decide
    · exact (hlabels l hl).no_at_no_dot.2.2 hcl
  rw [hs, List.count_append, List.count_cons_self, h1, h2]

set_option maxRecDepth 20000 in
/-- C15 at `alice@example.com`; a text around an address, a second `@`, a label
that ends in a hyphen and a label of 64 characters are not accepted. -/
theorem emailFormat_whole_string_witness :
    emailFormat.test (utf16 "alice@example.com") = true ∧
    (utf16 "alice@example.com").count 64 = 1 ∧
    emailFormat.test (utf16 "mail alice@example.com now") = false ∧
    emailFormat.test (utf16 "alice@bob@example.com") = false ∧
    emailFormat.test (utf16 "alice@example-.com") = false ∧
    emailFormat.test (utf16 "a@" ++ List.replicate 64 97) = false ∧
    emailFormat.test (utf16 "a@" ++ List.replicate 63 97) = true :=
  ⟨by decide, (emailFormat_whole_string (utf16 "alice@example.com") (by decide)).2,
    by decide, by decide, by decide, by decide, by decide⟩

/-! ## What a saved record is -/

theorem schemaValid_facts {doc : SignupRecord} (h : schemaValid doc = true) :
    doc.email ≠ [] ∧ doc.email.length ≤ 254 ∧ emailFormat.test doc.email = true ∧
    doc.ipHash ≠ [] := by
  simp only [schemaValid, Bool.and_eq_true, Bool.not_eq_true', decide_eq_true_eq] at h
  obtain ⟨⟨⟨h1, h2⟩, h3⟩, h4⟩ := h
  refine ⟨?_, h2, h3, ?_⟩
  · intro hc; simp [hc] at h1
  · intro hc; simp [hc] at h4

theorem save_ok_shape {libs : Libs} {fx : Oracle} {db db1 : Store} {doc : SignupRecord}
    (h : save libs fx db doc = .ok db1) :
    schemaValid doc = true ∧ fx.emailHashFails = false ∧
    db1 = db ++ [{ doc with emailHash := some (libs.hash doc.email fx.emailSalt) }] := by
  unfold save at h
  by_cases hv : schemaValid doc = true
  · have hne : doc.email.isEmpty = false := by
      have := (schemaValid_facts hv).1
      cases hd : doc.email with
      | nil => exact absurd hd this
      | cons _ _ => rfl
    simp only [hv, if_true] at h
    cases hf : fx.emailHashFails with
    | true => simp [preSave, hne, hf] at h
    | false =>
      simp only [preSave, hne, hf, Bool.not_false, if_true, Bool.false_eq_true, if_false] at h
      exact ⟨hv, rfl, (insert_ok h).1⟩
  · simp [hv] at h

theorem save_too_long (libs : Libs) (fx : Oracle) (db : Store) (doc : SignupRecord)
    (h : 254 < doc.email.length) : save libs fx db doc = .error .validationError := by
  have hv : schemaValid doc = false := by
    rw [Bool.eq_false_iff]
    intro hc
    have := (schemaValid_facts hc).2.1
    omega
  simp [save, hv]

theorem signupHandler_added (libs : Libs) (cfg : Config) (fx : Oracle) (req : Request)
    (db : Store) :
    (signupHandler libs cfg fx req db).db = db ∨
    ∃ ipHash, schemaValid (construct libs fx req ipHash) = true ∧
      (signupHandler libs cfg fx req db).db =
        db ++ [{ construct libs fx req ipHash with
          emailHash := some (libs.hash (construct libs fx req ipHash).email fx.emailSalt) }] := by
  unfold signupHandler
  cases findOne libs fx db req.email with
  | error e => left; rfl
  | ok found =>
    cases found with
    | some r => left; rfl
    | none =>
      cases hashIP libs cfg fx (jsOr req.ip req.remoteAddress) with
      | error e => left; rfl
      | ok ipHash =>
        cases hs : save libs fx db (construct libs fx req ipHash) with
        | error e => left; simp only [hs]; rfl
        | ok db1 =>
          right
          obtain ⟨h1, _, h3⟩ := save_ok_shape hs
          simp only [hs]
          exact ⟨ipHash, h1, h3⟩

theorem signupRoute_added (libs : Libs) (cfg : Config) (fx : Oracle) (req : Request)
    (st : ServerState) :
    (signupRoute libs cfg fx req st).1.db = st.db ∨
    ∃ d, schemaValid d = true ∧ (∃ salt, d.emailHash = some (libs.hash d.email salt)) ∧
      (signupRoute libs cfg fx req st).1.db = st.db ++ [d] := by
  unfold signupRoute
  rcases hl : rateLimiter cfg fx.now req st.limiter with ⟨t, _ | ⟨resp, line⟩⟩
  · rcases hv : validateEmail libs req with ⟨req1, _ | ⟨resp, line⟩⟩
    · rcases signupHandler_added libs cfg fx req1 st.db with h | ⟨ipHash, h1, h2⟩
      · left; simpa using h
      · right
        exact ⟨{ construct libs fx req1 ipHash with
            emailHash := some (libs.hash (construct libs fx req1 ipHash).email fx.emailSalt) },
          h1, ⟨fx.emailSalt, rfl⟩, by simpa using h2⟩
    · left; rfl
  · left; rfl

theorem reachable_records (libs : Libs) (cfg : Config) (st : ServerState)
    (h : Reachable libs cfg st) :
    ∀ r ∈ st.db, schemaValid r = true ∧ ∃ salt, r.emailHash = some (libs.hash r.email salt) := by
  induction h with
  | init t => intro r hr; cases hr
  | step st fx req _ ih =>
    intro r hr
    rcases signupRoute_added libs cfg fx req st with h | ⟨d, h1, h2, h3⟩
    · rw [h] at hr; exact ih r hr
    · rw [h3] at hr
      rcases List.mem_append.mp hr with hr | hr
      · exact ih r hr
      · rw [List.mem_singleton.mp hr]; exact ⟨h1, h2⟩

theorem signupHandler_hashIP_failed (libs : Libs) (cfg : Config) (fx : Oracle) (req : Request)
    (db : Store) (hfind : findOne libs fx db req.email = .ok none)
    (hfail : fx.hashIPFails = true) :
    signupHandler libs cfg fx req db = caught db [.findOne, .hashIP] .hashFailure := by
  simp [signupHandler, hfind, hashIP, hfail]

theorem signupHandler_save_failed (libs : Libs) (cfg : Config) (fx : Oracle) (req : Request)
    (db : Store) (ipHash : JSString) (e : SignupError)
    (hfind : findOne libs fx db req.email = .ok none)
    (hhash : hashIP libs cfg fx (jsOr req.ip req.remoteAddress) = .ok ipHash)
    (hsave : save libs fx db (construct libs fx req ipHash) = .error e) :
    signupHandler libs cfg fx req db = caught db [.findOne, .hashIP, .construct, .save] e := by
  simp [signupHandler, hfind, hhash, hsave]

theorem save_emailHash_failed (libs : Libs) (fx : Oracle) (db : Store) (doc : SignupRecord)
    (hfail : fx.emailHashFails = true) : ∃ e, save libs fx db doc = .error e := by
  cases hs : save libs fx db doc with
  | error e => exact ⟨e, rfl⟩
  | ok db1 =>
    have := (save_ok_shape hs).2.1
    rw [hfail] at this
    cases this

theorem signupHandler_response (libs : Libs) (cfg : Config) (fx : Oracle) (req : Request)
    (db : Store) :
    (signupHandler libs cfg fx req db).response = thankYou ∨
    (signupHandler libs cfg fx req db).response = signedUp ∨
    (signupHandler libs cfg fx req db).response = errorOccurred := by
  unfold signupHandler
  cases findOne libs fx db req.email with
  | error e => right; right; rfl
  | ok found =>
    cases found with
    | some r => left; rfl
    | none =>
      cases hashIP libs cfg fx (jsOr req.ip req.remoteAddress) with
      | error e => right; right; rfl
      | ok ipHash =>
        cases hs : save libs fx db (construct libs fx req ipHash) with
        | error e => right; right; simp only [hs]; rfl
        | ok db1 => right; left; simp only [hs]

theorem signupRoute_response (libs : Libs) (cfg : Config) (fx : Oracle) (req : Request)
    (st : ServerState) :
    (signupRoute libs cfg fx req st).2.response = tooManyRequests ∨
    (signupRoute libs cfg fx req st).2.response = invalidEmail ∨
    (signupRoute libs cfg fx req st).2.response = thankYou ∨
    (signupRoute libs cfg fx req st).2.response = signedUp ∨
    (signupRoute libs cfg fx req st).2.response = errorOccurred := by
  unfold signupRoute
  rcases hl : rateLimiter cfg fx.now req st.limiter with ⟨t, _ | ⟨resp, line⟩⟩
  · rcases hv : validateEmail libs req with ⟨req1, _ | ⟨resp, line⟩⟩
    · rcases signupHandler_response libs cfg fx req1 st.db with h | h | h
      · right; right; left; simpa using h
      · right; right; right; left; simpa using h
      · right; right; right; right; simpa using h
    · have hresp : resp = invalidEmail := by
        unfold validateEmail at hv
        dsimp only at hv
        split at hv
        · cases hv
        · cases hv; rfl
      right; left; simp [hresp]
  · have hresp : resp = tooManyRequests := by
      unfold rateLimiter at hl
      dsimp only at hl
      split at hl
      · cases hl; rfl
      · cases hl
    left; simp [hresp]

/-! ## Length, digests, errors -/

/-- C13: when the length checks of the library reject a value longer than 254
(`isEmail` on the submitted value or `isLength` max 254 on the normalized one),
a request that passes the limiter with an email longer than 254 is answered 400
with the body `success: false, message: 'Invalid email format'` and stores
nothing; `save` rejects every document whose email is longer than 254 with a
validation error; no record of a reachable state has an email longer than 254. -/
theorem too_long_email_rejected (libs : Libs) (cfg : Config) (fx : Oracle) (req : Request)
    (st : ServerState)
    (hlib : ∀ v : JSString, 254 < v.length →
      libs.isEmail v = false ∨ libs.isLength (libs.normalizeEmail v) 254 = false)
    (hpass : (rateLimiter cfg fx.now req st.limiter).2 = none)
    (hlong : 254 < req.email.length) :
    ((signupRoute libs cfg fx req st).2.response =
        ⟨400, [("success", .bool false), ("message", .str "Invalid email format")]⟩ ∧
      (signupRoute libs cfg fx req st).1.db = st.db) ∧
    (∀ (fx2 : Oracle) (db : Store) (doc : SignupRecord), 254 < doc.email.length →
      save libs fx2 db doc = .error .validationError) ∧
    ∀ s, Reachable libs cfg s → ∀ r ∈ s.db, r.email.length ≤ 254 := by
  have hchain : (validationChain libs req.email).2 ≠ [] := by
    apply validationChain_fails
    rcases hlib req.email hlong with h | h
    · exact Or.inl h
    · exact Or.inr (Or.inl h)
  have hv := validateEmail_rejects libs req hchain
  refine ⟨?_, fun fx2 db doc h => save_too_long libs fx2 db doc h,
    fun s hs r hr => (schemaValid_facts (reachable_records libs cfg s hs r hr).1).2.1⟩
  unfold signupRoute
  rcases hl : rateLimiter cfg fx.now req st.limiter with ⟨t, _ | ⟨resp, line⟩⟩
  · simp [hv, invalidEmail]
  · rw [hl] at hpass; simp at hpass

set_option maxRecDepth 20000 in
/-- C13 at an email of 259 characters (`a@b.` and 255 letters), on an empty
collection. -/
theorem too_long_email_rejected_witness :
    254 < ({ plainRequest "" with email := utf16 "a@b." ++ List.replicate 255 122 } : Request).email.length ∧
    (signupRoute plainLibs defaultConfig (calm 0)
        { plainRequest "" with email := utf16 "a@b." ++ List.replicate 255 122 }
        ⟨fun _ => none, []⟩).2.response =
      ⟨400, [("success", .bool false), ("message", .str "Invalid email format")]⟩ :=
  ⟨by decide,
    (too_long_email_rejected plainLibs defaultConfig (calm 0)
      { plainRequest "" with email := utf16 "a@b." ++ List.replicate 255 122 }
      ⟨fun _ => none, []⟩
      (fun v hv => Or.inr (by simp [plainLibs]; omega))
      (by decide) (by decide)).1.1⟩

/-- C16: under the default projection `ipHash`, `emailHash` and `userAgent` of a
record are absent, and so they are from the document `findOne` returns; the
body of every response of `POST /signup` is one of five fixed bodies (a
`success` flag and a fixed message), and the body of `GET /health` is
`status: 'OK'`: none carries a digest. -/
theorem digests_not_exposed (libs : Libs) (cfg : Config) (fx : Oracle) (req : Request)
    (st : ServerState) (r : SignupRecord) :
    ((project Path.select r).ipHash = none ∧ (project Path.select r).emailHash = none ∧
      (project Path.select r).userAgent = none) ∧
    (∀ d, findOne libs fx st.db req.email = .ok (some d) →
      d.ipHash = none ∧ d.emailHash = none ∧ d.userAgent = none) ∧
    (signupRoute libs cfg fx req st).2.response.body ∈
      [[("success", .bool false), ("message", .str "Too many requests, please try again later.")],
        [("success", .bool false), ("message", .str "Invalid email format")],
        [("success", .bool true), ("message", .str "Thank you for your interest!")],
        [("success", .bool true), ("message", .str "Successfully signed up for early access!")],
        [("success", .bool false), ("message", .str "An error occurred. Please try again.")]] ∧
    health.body = [("status", .str "OK")] := by
  refine ⟨⟨rfl, rfl, rfl⟩, ?_, ?_, rfl⟩
  · intro d hd
    unfold findOne at hd
    cases hf : fx.lookupFails with
    | true => simp [hf] at hd
    | false =>
      simp only [hf, Bool.false_eq_true, if_false, Except.ok.injEq] at hd
      cases hfound : st.db.find? (fun r => r.email == emailSetters libs req.email) with
      | none => simp [hfound] at hd
      | some x =>
        simp only [hfound, Option.map_some', Option.some.injEq] at hd
        subst hd
        exact ⟨rfl, rfl, rfl⟩
  · rcases signupRoute_response libs cfg fx req st with h | h | h | h | h <;>
      simp [h, tooManyRequests, invalidEmail, thankYou, signedUp, errorOccurred]

/-- C18: every record of a state reached through the signup route has a
non-empty `ipHash` and an `emailHash` that is the bcrypt digest of its email;
when the handler has found no record and the IP hashing fails, or the hashing
of the email in the pre-save hook fails, the response is the 500 error response
and the collection is unchanged. -/
theorem no_record_without_digests (libs : Libs) (cfg : Config) :
    (∀ s, Reachable libs cfg s → ∀ r ∈ s.db,
      r.ipHash ≠ [] ∧ ∃ salt, r.emailHash = some (libs.hash r.email salt)) ∧
    (∀ (fx : Oracle) (req : Request) (db : Store),
      findOne libs fx db req.email = .ok none → fx.hashIPFails = true →
      (signupHandler libs cfg fx req db).response = errorOccurred ∧
      (signupHandler libs cfg fx req db).db = db) ∧
    ∀ (fx : Oracle) (req : Request) (db : Store),
      findOne libs fx db req.email = .ok none → fx.emailHashFails = true →
      (signupHandler libs cfg fx req db).response = errorOccurred ∧
      (signupHandler libs cfg fx req db).db = db := by
  refine ⟨fun s hs r hr => ?_, fun fx req db hfind hfail => ?_, fun fx req db hfind hfail => ?_⟩
  · obtain ⟨hv, hsalt⟩ := reachable_records libs cfg s hs r hr
    exact ⟨(schemaValid_facts hv).2.2.2, hsalt⟩
  · rw [signupHandler_hashIP_failed libs cfg fx req db hfind hfail]
    exact ⟨rfl, rfl⟩
  · cases hh : hashIP libs cfg fx (jsOr req.ip req.remoteAddress) with
    | error e =>
      have : fx.hashIPFails = true := by
        cases hf : fx.hashIPFails with
        | true => rfl
        | false => simp [hashIP, hf] at hh
      rw [signupHandler_hashIP_failed libs cfg fx req db hfind this]
      exact ⟨rfl, rfl⟩
    | ok ipHash =>
      obtain ⟨e, he⟩ := save_emailHash_failed libs fx db (construct libs fx req ipHash) hfail
      rw [signupHandler_save_failed libs cfg fx req db ipHash e hfind hh he]
      exact ⟨rfl, rfl⟩

/-- C18 where bcrypt fails on the IP, and where it fails in the pre-save hook,
for a new `alice@example.com`. -/
theorem no_record_without_digests_witness :
    (signupHandler plainLibs defaultConfig { calm 0 with hashIPFails := true }
        (plainRequest "alice@example.com") []).response = errorOccurred ∧
    (signupHandler plainLibs defaultConfig { calm 0 with emailHashFails := true }
        (plainRequest "alice@example.com") []).db = [] :=
  ⟨((no_record_without_digests plainLibs defaultConfig).2.1 { calm 0 with hashIPFails := true }
      (plainRequest "alice@example.com") [] (by decide) (by decide)).1,
    ((no_record_without_digests plainLibs defaultConfig).2.2 { calm 0 with emailHashFails := true }
      (plainRequest "alice@example.com") [] (by decide) (by decide)).2⟩

/-- C19: whichever error the lookup, the IP hashing or the save throws, the
handler answers 500 with the body `success: false, message: 'An error
occurred. Please try again.'`, the same for every error, and leaves the
collection as it was. -/
theorem handler_error_is_generic (libs : Libs) (cfg : Config) (fx : Oracle) (req : Request)
    (db : Store) (e : SignupError)
    (hthrown : findOne libs fx db req.email = .error e ∨
      (findOne libs fx db req.email = .ok none ∧
        hashIP libs cfg fx (jsOr req.ip req.remoteAddress) = .error e) ∨
      ∃ ipHash, findOne libs fx db req.email = .ok none ∧
        hashIP libs cfg fx (jsOr req.ip req.remoteAddress) = .ok ipHash ∧
        save libs fx db (construct libs fx req ipHash) = .error e) :
    (signupHandler libs cfg fx req db).response =
      ⟨500, [("success", .bool false), ("message", .str "An error occurred. Please try again.")]⟩ ∧
    (signupHandler libs cfg fx req db).db = db := by
  rcases hthrown with h | ⟨h1, h2⟩ | ⟨ipHash, h1, h2, h3⟩
  · simp [signupHandler, h, caught, errorOccurred]
  · simp [signupHandler, h1, h2, caught, errorOccurred]
  · rw [signupHandler_save_failed libs cfg fx req db ipHash e h1 h2 h3]
    exact ⟨rfl, rfl⟩

/-- C19 where the lookup throws. -/
theorem handler_error_is_generic_witness :
    findOne plainLibs { calm 0 with lookupFails := true } []
        (plainRequest "alice@example.com").email = .error .storageUnavailable ∧
    (signupHandler plainLibs defaultConfig { calm 0 with lookupFails := true }
        (plainRequest "alice@example.com") []).response =
      ⟨500, [("success", .bool false), ("message", .str "An error occurred. Please try again.")]⟩ :=
  ⟨by decide,
    (handler_error_is_generic plainLibs defaultConfig { calm 0 with lookupFails := true }
      (plainRequest "alice@example.com") [] .storageUnavailable (Or.inl (by decide))).1⟩

/-- C20 as stated fails: with `NODE_ENV` set to `development`, or not set, the
message of the response is the message of the error. -/
theorem errorHandler_echoes_message :
    errorHandler (some (utf16 "development")) ⟨"connect ECONNREFUSED 127.0.0.1:27017", none⟩ =
      ⟨500, [("success", .bool false),
        ("message", .str "connect ECONNREFUSED 127.0.0.1:27017")]⟩ ∧
    errorHandler none ⟨"Unexpected token in JSON at position 9", some 400⟩ =
      ⟨400, [("success", .bool false),
        ("message", .str "Unexpected token in JSON at position 9")]⟩ := by
  decide

/-- C20, amended: with `NODE_ENV` equal to `production` the body is
`success: false` with the fixed message `Something went wrong!`, whatever the
error; with any other setting the message is `err.message`. The status is
exactly `err.status` when that is a non-zero number, and exactly 500 when it is
not set or zero. -/
theorem errorHandler_generic_in_production (err : AppError) (nodeEnv : Option JSString) :
    (errorHandler (some (utf16 "production")) err).body =
      [("success", .bool false), ("message", .str "Something went wrong!")] ∧
    (nodeEnv ≠ some (utf16 "production") →
      (errorHandler nodeEnv err).body =
        [("success", .bool false), ("message", .str err.message)]) ∧
    (∀ n, err.status = some n → n ≠ 0 → (errorHandler nodeEnv err).status = n) ∧
    (err.status = none ∨ err.status = some 0 → (errorHandler nodeEnv err).status = 500) := by
  refine ⟨by simp [errorHandler], fun h => by simp [errorHandler, h], ?_, ?_⟩
  · intro n hs hn
    cases n with
    | zero => exact absurd rfl hn
    | succ m => simp [errorHandler, hs]
  · rintro (hs | hs) <;> simp [errorHandler, hs]

/-! ## The integrity check -/

theorem verifyEmailIntegrity_stored (libs : Libs) (r : SignupRecord) (digest c : JSString)
    (hstored : r.emailHash = some digest) (hne : digest ≠ []) :
    verifyEmailIntegrity libs (project withEmailHash r) c = libs.compare c digest := by
  cases digest with
  | nil => exact absurd rfl hne
  | cons a d =>
    have : (project withEmailHash r).emailHash = some (a :: d) := by
      simp [project, withEmailHash, hstored]
    simp [verifyEmailIntegrity, this]

theorem verifyEmailIntegrity_same_key (libs : Libs) (doc : Document) (c e : JSString)
    (hkey : bcryptKey c = bcryptKey e) :
    verifyEmailIntegrity libs doc c = verifyEmailIntegrity libs doc e := by
  unfold verifyEmailIntegrity Libs.compare Libs.hash
  rw [hkey]

set_option maxRecDepth 20000 in
/-- C17 fails on the code: `longOrg` and `longCom` are two distinct addresses, of
87 characters each and accepted by the schema pattern, that bcrypt cannot tell
apart because they agree on their first 72 bytes; the check gives the same
answer for both on every document and with every digest function, and on the
record created for `longOrg` it returns `true` for `longCom`, an email the
record was not created with. -/
theorem integrity_check_accepts_other_email :
    longOrg ≠ longCom ∧ longOrg.length ≤ 254 ∧ longCom.length ≤ 254 ∧
    emailFormat.test longOrg = true ∧ emailFormat.test longCom = true ∧
    (∀ (libs : Libs) (doc : Document),
      verifyEmailIntegrity libs doc longCom = verifyEmailIntegrity libs doc longOrg) ∧
    ((signupRoute plainLibs defaultConfig (calm 0) { plainRequest "" with email := longOrg }
        ⟨fun _ => none, []⟩).1.db.map
      (fun r => (r.email, verifyEmailIntegrity plainLibs (project withEmailHash r) longOrg,
        verifyEmailIntegrity plainLibs (project withEmailHash r) longCom))) =
      [(longOrg, true, true)] := by
  refine ⟨by decide, by decide, by decide, by decide, by decide, ?_, by decide⟩
  intro libs doc
  exact verifyEmailIntegrity_same_key libs doc longCom longOrg (by decide)

/-- What the check computes on a stored record whose `emailHash` is the bcrypt
digest of its email (non-empty, and carrying its salt), loaded with `emailHash`:
it returns `true` for the email of the record, and for a candidate exactly when
bcrypt gives the candidate the same digest under that salt, as it does whenever
the candidate has the same first 72 bytes as the email. -/
theorem verifyEmailIntegrity_compares_digests (libs : Libs) (r : SignupRecord) (salt c : JSString)
    (hstored : r.emailHash = some (libs.hash r.email salt))
    (hsalt : libs.bcryptSalt (libs.hash r.email salt) = salt)
    (hne : libs.hash r.email salt ≠ []) :
    verifyEmailIntegrity libs (project withEmailHash r) r.email = true ∧
    (verifyEmailIntegrity libs (project withEmailHash r) c = true ↔
      libs.bcryptHash (bcryptKey c) salt = libs.bcryptHash (bcryptKey r.email) salt) ∧
    (bcryptKey c = bcryptKey r.email →
      verifyEmailIntegrity libs (project withEmailHash r) c = true) := by
  have hv : ∀ x, verifyEmailIntegrity libs (project withEmailHash r) x =
      libs.compare x (libs.hash r.email salt) :=
    fun x => verifyEmailIntegrity_stored libs r _ x hstored hne
  have hiff : ∀ x, libs.compare x (libs.hash r.email salt) = true ↔
      libs.bcryptHash (bcryptKey x) salt = libs.bcryptHash (bcryptKey r.email) salt := by
    intro x
    simp only [Libs.compare, hsalt, beq_iff_eq]
    rfl
  refine ⟨by rw [hv, hiff], by rw [hv, hiff], fun hkey => by rw [hv, hiff, hkey]⟩

/-- The check on the record of `alice@example.com`: it accepts
`alice@example.com` and refuses `alice@example.org`. -/
theorem verifyEmailIntegrity_compares_digests_example :
    (signupHandler plainLibs defaultConfig (calm 0) (plainRequest "alice@example.com") []).db.map
      (fun r => (verifyEmailIntegrity plainLibs (project withEmailHash r) r.email,
        verifyEmailIntegrity plainLibs (project withEmailHash r) (utf16 "alice@example.org"))) =
      [(true, false)] ∧
    verifyEmailIntegrity plainLibs
      (project withEmailHash
        { construct plainLibs (calm 0) (plainRequest "alice@example.com") (utf16 "$2b$10$ipdigest") with
          emailHash := some (plainLibs.hash (utf16 "alice@example.com") (utf16 "$2b$10$em")) })
      (utf16 "alice@example.com") = true :=
  ⟨by decide,
    (verifyEmailIntegrity_compares_digests plainLibs
      { construct plainLibs (calm 0) (plainRequest "alice@example.com") (utf16 "$2b$10$ipdigest") with
        emailHash := some (plainLibs.hash (utf16 "alice@example.com") (utf16 "$2b$10$em")) }
      (utf16 "$2b$10$em") (utf16 "alice@example.org") (by decide) (by decide) (by decide)).1⟩

/-! ## The application -/

theorem app_parse_error (libs : Libs) (cfg : Config) (nodeEnv : Option JSString)
    (early : Headers) (fx : Oracle) (inc : Incoming) (st : ServerState) (err : AppError)
    (hm : inc.isOptions = false) (h : inc.parseError = some err) :
    app libs cfg nodeEnv early fx inc st =
      (st, ⟨errorHandler nodeEnv err, early, [], [⟨"error", utf16 "Error:", none⟩]⟩) := by
  simp [app, hm, h]

theorem app_preflight (libs : Libs) (cfg : Config) (nodeEnv : Option JSString)
    (early : Headers) (fx : Oracle) (inc : Incoming) (st : ServerState)
    (hm : inc.isOptions = true) :
    app libs cfg nodeEnv early fx inc st = (st, ⟨⟨200, []⟩, early, [], []⟩) := by
  simp [app, hm]

theorem app_headers (libs : Libs) (cfg : Config) (nodeEnv : Option JSString)
    (early : Headers) (fx : Oracle) (inc : Incoming) (st : ServerState)
    (hm : inc.isOptions = false) (h : inc.parseError = none) :
    (app libs cfg nodeEnv early fx inc st).2.headers =
      (securityMiddleware inc.forwardedFor inc.req.ip early).1 := by
  unfold app
  rw [hm, h]
  cases inc.endpoint <;> rfl

theorem lookup_setHeader_same (h : Headers) (name value : String) :
    (setHeader h name value).lookup name = some value := by
  unfold setHeader removeHeader
  induction h with
  | nil => simp [List.lookup]
  | cons p h ih =>
    obtain ⟨k, v⟩ := p
    by_cases hk : k = name
    · have hf : (k != name) = false := by simp [hk]
      rw [List.filter_cons]
      simp only [hf, Bool.false_eq_true, if_false]
      exact ih
    · have hf : (k != name) = true := by simpa using hk
      have hne : (name == k) = false := by
        simp only [beq_eq_false_iff_ne, ne_eq]
        exact fun hc => hk hc.symm
      rw [List.filter_cons]
      simp only [hf, if_true, List.cons_append, List.lookup, hne]
      exact ih

theorem lookup_setHeader_other (h : Headers) (name other value : String) (hne : name ≠ other) :
    (setHeader h other value).lookup name = h.lookup name := by
  have hno : (name == other) = false := by simpa using hne
  unfold setHeader removeHeader
  induction h with
  | nil => simp [List.lookup, hno]
  | cons p h ih =>
    obtain ⟨k, v⟩ := p
    by_cases hk : k = other
    · have hf : (k != other) = false := by simp [hk]
      have hnk : (name == k) = false := by rw [hk]; exact hno
      rw [List.filter_cons]
      simp only [hf, Bool.false_eq_true, if_false, List.lookup, hnk]
      exact ih
    · have hf : (k != other) = true := by simpa using hk
      rw [List.filter_cons]
      simp only [hf, if_true, List.cons_append, List.lookup]
      cases hb : name == k with
      | true => rfl
      | false => exact ih

theorem securityMiddleware_headers (forwardedFor ip : Option JSString) (h : Headers) :
    (securityMiddleware forwardedFor ip h).1.lookup "X-Content-Type-Options" = some "nosniff" ∧
    (securityMiddleware forwardedFor ip h).1.lookup "X-Frame-Options" = some "DENY" ∧
    (securityMiddleware forwardedFor ip h).1.lookup "Referrer-Policy" =
      some "strict-origin-when-cross-origin" := by
  unfold securityMiddleware
  refine ⟨?_, ?_, ?_⟩
  · rw [lookup_setHeader_other _ _ _ _ (by decide), lookup_setHeader_other _ _ _ _ (by decide),
      lookup_setHeader_other _ _ _ _ (by decide), lookup_setHeader_other _ _ _ _ (by decide),
      lookup_setHeader_same]
  · rw [lookup_setHeader_other _ _ _ _ (by decide), lookup_setHeader_other _ _ _ _ (by decide),
      lookup_setHeader_other _ _ _ _ (by decide), lookup_setHeader_same]
  · rw [lookup_setHeader_other _ _ _ _ (by decide), lookup_setHeader_same]

/-- C21 as stated fails: the response to an error of the body parser, and the
response cors gives to a request of method OPTIONS, carry the headers set before
the parser and nothing of `securityMiddleware`, whatever those headers are; with
the headers of helmet their `X-Frame-Options` is `SAMEORIGIN` and their
`Referrer-Policy` is `no-referrer`. -/
theorem parse_error_skips_security_headers :
    (∀ (libs : Libs) (cfg : Config) (nodeEnv : Option JSString) (early : Headers) (fx : Oracle)
        (req : Request) (st : ServerState) (err : AppError),
      (app libs cfg nodeEnv early fx ⟨.signup, some err, none, req, false⟩ st).2.headers = early ∧
      (app libs cfg nodeEnv early fx ⟨.signup, none, none, req, true⟩ st).2.headers = early) ∧
    (app plainLibs defaultConfig (some (utf16 "production")) helmetDefaults (calm 0)
        ⟨.signup, some ⟨"Unexpected token in JSON at position 9", some 400⟩, none,
          plainRequest "alice@example.com", false⟩ ⟨fun _ => none, []⟩).2.headers.lookup
        "X-Frame-Options" = some "SAMEORIGIN" ∧
    (app plainLibs defaultConfig (some (utf16 "production")) helmetDefaults (calm 0)
        ⟨.signup, some ⟨"Unexpected token in JSON at position 9", some 400⟩, none,
          plainRequest "alice@example.com", false⟩ ⟨fun _ => none, []⟩).2.headers.lookup
        "Referrer-Policy" = some "no-referrer" ∧
    (app plainLibs defaultConfig (some (utf16 "production")) helmetDefaults (calm 0)
        ⟨.signup, none, none, plainRequest "alice@example.com", true⟩
        ⟨fun _ => none, []⟩).2.headers.lookup "X-Frame-Options" = some "SAMEORIGIN" := by
  refine ⟨?_, by decide, by decide, by decide⟩
  intro libs cfg nodeEnv early fx req st err
  rw [app_parse_error libs cfg nodeEnv early fx _ st err rfl rfl,
    app_preflight libs cfg nodeEnv early fx _ st rfl]
  exact ⟨rfl, rfl⟩

/-- C21, amended: every response to a request that is not of method OPTIONS and
whose body the parser accepts (the responses of `POST /signup`, of `GET /health`
and the 404 of an unknown address) carries `X-Content-Type-Options: nosniff`,
`X-Frame-Options: DENY` and `Referrer-Policy: strict-origin-when-cross-origin`,
whatever the request and whatever was set before. -/
theorem security_headers_after_parsing (libs : Libs) (cfg : Config) (nodeEnv : Option JSString)
    (early : Headers) (fx : Oracle) (inc : Incoming) (st : ServerState)
    (hm : inc.isOptions = false) (h : inc.parseError = none) :
    (app libs cfg nodeEnv early fx inc st).2.headers.lookup "X-Content-Type-Options" =
      some "nosniff" ∧
    (app libs cfg nodeEnv early fx inc st).2.headers.lookup "X-Frame-Options" = some "DENY" ∧
    (app libs cfg nodeEnv early fx inc st).2.headers.lookup "Referrer-Policy" =
      some "strict-origin-when-cross-origin" := by
  rw [app_headers libs cfg nodeEnv early fx inc st hm h]
  exact securityMiddleware_headers _ _ _

/-- The amended C21 for a signup that the limiter refuses. -/
theorem security_headers_after_parsing_witness :
    (app plainLibs defaultConfig none helmetDefaults (calm 1000)
        ⟨.signup, none, none, plainRequest "alice@example.com", false⟩
        ⟨fun _ => some ⟨5, 0⟩, []⟩).2.response.status = 429 ∧
    (app plainLibs defaultConfig none helmetDefaults (calm 1000)
        ⟨.signup, none, none, plainRequest "alice@example.com", false⟩
        ⟨fun _ => some ⟨5, 0⟩, []⟩).2.headers.lookup "X-Frame-Options" = some "DENY" :=
  ⟨by decide,
    (security_headers_after_parsing plainLibs defaultConfig none helmetDefaults (calm 1000)
      ⟨.signup, none, none, plainRequest "alice@example.com", false⟩ ⟨fun _ => some ⟨5, 0⟩, []⟩
      rfl rfl).2.1⟩

/-- C22: `GET /health` answers 200 with the body `status: 'OK'`, runs no
operation, and leaves the state (the collection and the table of the limiter)
as it was: also when the client is over its signup budget. -/
theorem health_is_free (libs : Libs) (cfg : Config) (nodeEnv : Option JSString)
    (early : Headers) (fx : Oracle) (req : Request) (forwardedFor : Option JSString)
    (st : ServerState) :
    (app libs cfg nodeEnv early fx ⟨.health, none, forwardedFor, req, false⟩ st).2.response =
      ⟨200, [("status", .str "OK")]⟩ ∧
    (app libs cfg nodeEnv early fx ⟨.health, none, forwardedFor, req, false⟩ st).2.ops = [] ∧
    (app libs cfg nodeEnv early fx ⟨.health, none, forwardedFor, req, false⟩ st).1 = st ∧
    (app plainLibs defaultConfig none helmetDefaults (calm 1000)
        ⟨.health, none, none, plainRequest "alice@example.com", false⟩
        ⟨fun _ => some ⟨5, 0⟩, []⟩).2.response.status = 200 ∧
    ((app plainLibs defaultConfig none helmetDefaults (calm 1000)
        ⟨.health, none, none, plainRequest "alice@example.com", false⟩
        ⟨fun _ => some ⟨5, 0⟩, []⟩).1.limiter (some (utf16 "203.0.113.7"))) = some ⟨5, 0⟩ :=
  ⟨rfl, rfl, rfl, by decide, by decide⟩

/-- C23: a request leaves every record of the collection in place and
unchanged: the collection after it is the one before it, or the one before it
with one record appended. -/
theorem records_never_touched (libs : Libs) (cfg : Config) (nodeEnv : Option JSString)
    (early : Headers) (fx : Oracle) (inc : Incoming) (st : ServerState) :
    (app libs cfg nodeEnv early fx inc st).1.db = st.db ∨
    ∃ d, (app libs cfg nodeEnv early fx inc st).1.db = st.db ++ [d] := by
  unfold app
  cases inc.isOptions with
  | true => left; rfl
  | false =>
    cases inc.parseError with
    | some err => left; rfl
    | none =>
      cases inc.endpoint with
      | signup =>
        rcases signupRoute_db libs cfg fx inc.req st with h | ⟨d, h, _⟩
        · left; exact h
        · right; exact ⟨d, h⟩
      | health => left; rfl
      | other => left; rfl

/-- C26: on a document without `emailHash` the check is `false` for every
candidate; a record read under the default projection is such a document, also
for its own email. -/
theorem integrity_check_needs_hash (libs : Libs) (r : SignupRecord) (c : JSString) :
    (∀ doc : Document, doc.emailHash = none → verifyEmailIntegrity libs doc c = false) ∧
    verifyEmailIntegrity libs (project Path.select r) c = false ∧
    verifyEmailIntegrity libs (project Path.select r) r.email = false := by
  refine ⟨fun doc h => by simp [verifyEmailIntegrity, h], rfl, rfl⟩

/-- C28 fails on the code: for the request with `aaaaa@test.com`, which the
validator refuses, the warning written is `Validation failed for email:
aaaaa@test.com`, the email in full; on the success path the line is `New early
access signup: ali***`. -/
theorem validation_failure_logs_full_email :
    (signupRoute plainLibs defaultConfig (calm 0) (plainRequest "aaaaa@test.com")
        ⟨fun _ => none, []⟩).2.logs =
      [⟨"warn", utf16 "Validation failed for email: aaaaa@test.com", none⟩] ∧
    (signupRoute plainLibs defaultConfig (calm 0) (plainRequest "alice@example.com")
        ⟨fun _ => none, []⟩).2.logs =
      [⟨"info", utf16 "New early access signup: ali***", none⟩] := by
  decide

/-! ## The settings of the limiter -/

theorem decDigit_of_digit {d : Nat} (h : d < 10) : decDigit (d + 48) = some d := by
  interval_cases d <;> rfl

theorem isTrimmable_of_digit {d : Nat} (h : d < 10) : isTrimmable (d + 48) = false := by
  interval_cases d <;> rfl

theorem digitsPrefix_digits :
    ∀ ds : List Nat, (∀ d ∈ ds, d < 10) → digitsPrefix decDigit (ds.map (fun d => d + 48)) = ds := by
  intro ds
  induction ds with
  | nil => intro _; rfl
  | cons d ds ih =>
    intro h
    have hd := decDigit_of_digit (h d (List.mem_cons_self _ _))
    simp only [List.map_cons, digitsPrefix, hd]
    rw [ih (fun x hx => h x (List.mem_cons_of_mem _ hx))]

theorem takeSign_digits (d : Nat) (r : JSString) (h : d < 10) :
    takeSign ((d + 48) :: r) = (false, (d + 48) :: r) := by
  interval_cases d <;> rfl

theorem takeRadix_digits (d : Nat) (ds : List Nat) (h : ∀ x ∈ d :: ds, x < 10) :
    takeRadix ((d :: ds).map (fun x => x + 48)) = (10, (d :: ds).map (fun x => x + 48)) := by
  have hd : d < 10 := h d (List.mem_cons_self _ _)
  cases ds with
  | nil => interval_cases d <;> rfl
  | cons e ds =>
    have he : e < 10 := h e (by simp)
    interval_cases d
    · interval_cases e <;> rfl
    all_goals rfl

theorem parseInt_digits (ds : List Nat) (hne : ds ≠ []) (h : ∀ d ∈ ds, d < 10) :
    parseInt (some (ds.map (fun d => d + 48))) =
      toNumber false (ds.foldl (fun a d => a * 10 + d) 0) := by
  cases ds with
  | nil => exact absurd rfl hne
  | cons d ds =>
    have hd : d < 10 := h d (List.mem_cons_self _ _)
    have hdrop : ((d :: ds).map (fun x => x + 48)).dropWhile isTrimmable =
        (d :: ds).map (fun x => x + 48) := by
      simp [List.dropWhile, isTrimmable_of_digit hd]
    have hsign : takeSign ((d :: ds).map (fun x => x + 48)) =
        (false, (d :: ds).map (fun x => x + 48)) := takeSign_digits d _ hd
    have hradix := takeRadix_digits d ds h
    have hdigits := digitsPrefix_digits (d :: ds) h
    have hdigits2 : digitsPrefix decDigit ((d + 48) :: ds.map (fun x => x + 48)) = d :: ds := by
      simpa using hdigits
    unfold parseInt
    simp only [jsToString, hdrop, hsign, hradix, hdigits]
    simp [hdigits2]

theorem toNumber_small (n : Nat) (h : n < 2 ^ 53) : toNumber false n = .num n := by
  unfold toNumber roundToDouble
  rw [if_pos h]
  rfl

theorem parseInt_not_numeric (c : CodeUnit) (s : JSString) (h1 : isTrimmable c = false)
    (h2 : c ≠ 45) (h3 : c ≠ 43) (h4 : decDigit c = none) : parseInt (some (c :: s)) = .nan := by
  have hdrop : (c :: s).dropWhile isTrimmable = c :: s := by simp [List.dropWhile, h1]
  have hsign : takeSign (c :: s) = (false, c :: s) := by
    unfold takeSign
    split
    · rename_i heq; cases heq; exact absurd rfl h2
    · rename_i heq; cases heq; exact absurd rfl h3
    · rfl
  have h48 : c ≠ 48 := by
    rintro rfl
    revert h4
    decide
  have hradix : takeRadix (c :: s) = (10, c :: s) := by
    unfold takeRadix
    split
    · rename_i heq; cases heq; exact absurd rfl h48
    · rename_i heq; cases heq; exact absurd rfl h48
    · rfl
  unfold parseInt
  simp only [jsToString, hdrop, hsign, hradix]
  simp [digitsPrefix, h4]

set_option maxRecDepth 100000 in
/-- C24: with the variable unset the window is 900000 ms and the cap is 5;
each setting is the number `parseInt` reads from the variable when that is a
number other than 0 (and not `NaN`), and the default otherwise; `0` and a text
that does not start with a number give the default; a text of decimal digits
gives the Number value of the integer they write, which is that integer itself
below 2^53 (above, the nearest double: 9007199254740992 for
`9007199254740993`, `Infinity` for 400 digits `9`). -/
theorem limiter_settings :
    (windowMsSetting none = .num 900000 ∧ maxSetting none = .num 5) ∧
    (∀ env, windowMsSetting env =
      match parseInt env with
      | .num n => if n = 0 then .num 900000 else .num n
      | .nan => .num 900000
      | .inf negative => .inf negative) ∧
    (∀ env, maxSetting env =
      match parseInt env with
      | .num n => if n = 0 then .num 5 else .num n
      | .nan => .num 5
      | .inf negative => .inf negative) ∧
    (windowMsSetting (some (utf16 "0")) = .num 900000 ∧ maxSetting (some (utf16 "0")) = .num 5 ∧
      windowMsSetting (some (utf16 "fifteen minutes")) = .num 900000 ∧
      maxSetting (some (utf16 "many")) = .num 5 ∧ maxSetting (some (utf16 "")) = .num 5 ∧
      windowMsSetting (some (utf16 "60000")) = .num 60000 ∧
      maxSetting (some (utf16 "10")) = .num 10) ∧
    (maxSetting (some (utf16 "9007199254740993")) = .num 9007199254740992 ∧
      maxSetting (some (List.replicate 400 57)) = .inf false) ∧
    (∀ (c : CodeUnit) (s : JSString), isTrimmable c = false → c ≠ 45 → c ≠ 43 →
      decDigit c = none →
      windowMsSetting (some (c :: s)) = .num 900000 ∧ maxSetting (some (c :: s)) = .num 5) ∧
    (∀ ds : List Nat, ds ≠ [] → (∀ d ∈ ds, d < 10) →
      parseInt (some (ds.map (fun d => d + 48))) =
        toNumber false (ds.foldl (fun a d => a * 10 + d) 0)) ∧
    ∀ ds : List Nat, ds ≠ [] → (∀ d ∈ ds, d < 10) →
      ds.foldl (fun a d => a * 10 + d) 0 < 2 ^ 53 →
      parseInt (some (ds.map (fun d => d + 48))) =
        .num ((ds.foldl (fun a d => a * 10 + d) 0 : Nat) : Int) := by
  refine ⟨⟨by decide, by decide⟩, fun env => ?_, fun env => ?_,
    ⟨by decide, by decide, by decide, by decide, by decide, by decide, by decide⟩, ?_,
    fun c s h1 h2 h3 h4 => ?_, parseInt_digits, fun ds hne h hlt => ?_⟩
  · unfold windowMsSetting orDefault
    cases parseInt env <;> rfl
  · unfold maxSetting orDefault
    cases parseInt env <;> rfl
  · exact ⟨by decide, by decide⟩
  · simp [windowMsSetting, maxSetting, orDefault, parseInt_not_numeric c s h1 h2 h3 h4]
  · rw [parseInt_digits ds hne h, toNumber_small _ hlt]

/-! ## The custom check, both ways -/

theorem RegExp.search_sound {re : RegExp} (h : re.anchored = false) (s : JSString)
    (ht : re.test s = true) : ∃ pre t, s = pre ++ t ∧ re.body t ≠ [] := by
  simp only [RegExp.test, h, Bool.false_eq_true, if_false, List.any_eq_true] at ht
  obtain ⟨t, hmem, hbody⟩ := ht
  obtain ⟨pre, hpre⟩ := (List.mem_tails _ _).mp hmem
  refine ⟨pre, t, hpre.symm, ?_⟩
  intro hnil
  simp [hnil] at hbody

theorem Matcher.lit_sound : ∀ (w s r : JSString), r ∈ Matcher.lit w s → s = w ++ r := by
  intro w
  induction w with
  | nil =>
    intro s r h
    have : r = s := by simpa [Matcher.lit, Matcher.eps] using h
    simp [this]
  | cons u w ih =>
    intro s r h
    obtain ⟨m, hm, hr⟩ := Matcher.mem_seq.mp h
    rw [Matcher.mem_unit.mp hm, ih m r hr]
    rfl

theorem Matcher.exactly_unit_sound (c : CodeUnit) :
    ∀ (n : Nat) (s r : JSString), r ∈ Matcher.exactly (Matcher.unit c) n s →
      ∃ rest, s = List.replicate n c ++ rest := by
  intro n
  induction n with
  | zero => intro s r _; exact ⟨s, by simp⟩
  | succ n ih =>
    intro s r h
    obtain ⟨m, hm, hr⟩ := Matcher.mem_seq.mp h
    obtain ⟨rest, hrest⟩ := ih m r hr
    exact ⟨rest, by rw [Matcher.mem_unit.mp hm, hrest, List.replicate_succ]; rfl⟩

theorem repeatedCharacters_sound (v : JSString) (h : repeatedCharacters.test v = true) :
    ∃ pre post c, v = pre ++ List.replicate 5 c ++ post := by
  obtain ⟨pre, t, hv, hbody⟩ := RegExp.search_sound rfl v h
  cases t with
  | nil => simp [repeatedCharacters] at hbody
  | cons c r =>
    by_cases hc : isLineTerminator c = true
    · simp [repeatedCharacters, hc] at hbody
    · simp only [repeatedCharacters, hc, Bool.false_eq_true, if_false] at hbody
      obtain ⟨x, hx⟩ := List.exists_mem_of_ne_nil _ hbody
      obtain ⟨m, hm, _⟩ := Matcher.mem_seq.mp hx
      obtain ⟨rest, hrest⟩ := Matcher.exactly_unit_sound c 4 r m hm
      exact ⟨pre, rest, c, by rw [hv, hrest, List.append_assoc]; rfl⟩

theorem testEmails_sound (v : JSString) (h : testEmails.test v = true) :
    ∃ pre post, v = pre ++ utf16 "test@test" ++ post := by
  obtain ⟨pre, t, hv, hbody⟩ := RegExp.search_sound rfl v h
  obtain ⟨x, hx⟩ := List.exists_mem_of_ne_nil _ hbody
  exact ⟨pre, x, by rw [hv, Matcher.lit_sound _ t x hx, List.append_assoc]⟩

theorem missingTLD_sound (v : JSString) (h : missingTLD.test v = true) :
    ∃ loc dom, v = loc ++ 64 :: dom ∧ loc ≠ [] ∧ 64 ∉ loc ∧ dom ≠ [] ∧ 46 ∉ dom := by
  have hne : missingTLD.body v ≠ [] := by
    intro hnil
    simp [RegExp.test, missingTLD] at h
    simp [missingTLD] at hnil
    simp [hnil] at h
  obtain ⟨r, hr⟩ := List.exists_mem_of_ne_nil _ hne
  simp only [missingTLD] at hr
  obtain ⟨m1, hm1, hr1⟩ := Matcher.mem_seq.mp hr
  obtain ⟨loc, hloc, rfl, hall⟩ := Matcher.plus_cls_sound _ v m1 hm1
  obtain ⟨m2, hm2, hr2⟩ := Matcher.mem_seq.mp hr1
  have hat := Matcher.mem_unit.mp hm2
  obtain ⟨m3, hm3, hr3⟩ := Matcher.mem_seq.mp hr2
  obtain ⟨dom, hdom, rfl, hdall⟩ := Matcher.plus_cls_sound _ m2 m3 hm3
  obtain ⟨rfl, _⟩ := Matcher.mem_eol.mp hr3
  refine ⟨loc, dom, by rw [hat]; simp, hloc, ?_, hdom, ?_⟩
  · intro hc
    simpa using hall 64 hc
  · intro hc
    simpa using hdall 46 hc

theorem custom_ok_iff (v : JSString) :
    custom v = .ok true ↔ ∀ p ∈ suspiciousPatterns, p.test v = false := by
  constructor
  · intro h p hp
    cases ht : p.test v with
    | false => rfl
    | true =>
      rw [custom_error_of_test v p hp ht] at h
      cases h
  · exact customLoop_ok_of_none v suspiciousPatterns

theorem no_run_of_test_false (v : JSString) (h : repeatedCharacters.test v = false)
    (hlt : ∀ c ∈ v, isLineTerminator c = false) :
    ∀ (pre post : JSString) (c : CodeUnit) (n : Nat), 5 ≤ n →
      v ≠ pre ++ List.replicate n c ++ post := by
  intro pre post c n hn hv
  have hc : c ∈ v := by
    rw [hv]
    exact List.mem_append_left _
      (List.mem_append_right _ (List.mem_replicate.mpr ⟨by omega, rfl⟩))
  have := repeatedCharacters_run pre post c n hn (hlt c hc)
  rw [← hv, h] at this
  cases this

theorem no_text_of_test_false (v : JSString) (h : testEmails.test v = false) :
    ∀ pre post : JSString, v ≠ pre ++ utf16 "test@test" ++ post := by
  intro pre post hv
  have : testEmails.test (pre ++ (utf16 "test@test" ++ post)) = true :=
    RegExp.test_search rfl pre _ (List.ne_nil_of_mem (Matcher.mem_lit (utf16 "test@test") post))
  rw [← List.append_assoc, ← hv, h] at this
  cases this

theorem no_shape_of_test_false (v : JSString) (h : missingTLD.test v = false) :
    ∀ loc dom : JSString, loc ≠ [] → 64 ∉ loc → dom ≠ [] → 46 ∉ dom → v ≠ loc ++ 64 :: dom := by
  intro loc dom h1 h2 h3 h4 hv
  have := missingTLD_shape loc dom h1 h2 h3 h4
  rw [← hv, h] at this
  cases this

/-- C25: the custom check returns `true` exactly when none of its three
patterns tests true; so it returns `true` for every value that has no run of
five or more identical characters, does not contain `test@test`, and is not a
non-empty text free of `@` (64), then `@`, then a non-empty text free of `.`
(46). -/
theorem custom_accepts_plain_values (v : JSString)
    (hrun : ∀ (pre post : JSString) (c : CodeUnit) (n : Nat), 5 ≤ n →
      v ≠ pre ++ List.replicate n c ++ post)
    (htext : ∀ pre post : JSString, v ≠ pre ++ utf16 "test@test" ++ post)
    (hshape : ∀ loc dom : JSString, loc ≠ [] → 64 ∉ loc → dom ≠ [] → 46 ∉ dom →
      v ≠ loc ++ 64 :: dom) :
    (∀ w, custom w = .ok true ↔ ∀ p ∈ suspiciousPatterns, p.test w = false) ∧
    custom v = .ok true := by
  refine ⟨custom_ok_iff, (custom_ok_iff v).mpr ?_⟩
  intro p hp
  simp only [suspiciousPatterns, List.mem_cons, List.mem_singleton, List.not_mem_nil,
    or_false] at hp
  cases ht : p.test v with
  | false => rfl
  | true =>
    rcases hp with rfl | rfl | rfl
    · obtain ⟨pre, post, c, hv⟩ := repeatedCharacters_sound v ht
      exact absurd hv (hrun pre post c 5 (le_refl 5))
    · obtain ⟨pre, post, hv⟩ := testEmails_sound v ht
      exact absurd hv (htext pre post)
    · obtain ⟨loc, dom, hv, h1, h2, h3, h4⟩ := missingTLD_sound v ht
      exact absurd hv (hshape loc dom h1 h2 h3 h4)

/-- C25 at `aaaa@example.com`, a run of four and a dotted domain. -/
theorem custom_accepts_plain_values_witness :
    custom (utf16 "aaaa@example.com") = .ok true :=
  (custom_accepts_plain_values (utf16 "aaaa@example.com")
    (no_run_of_test_false _ (by decide) (by decide))
    (no_text_of_test_false _ (by decide))
    (no_shape_of_test_false _ (by decide))).2

/-! ## The limiter before the validator -/

theorem validationChain_of_rejects (libs : Libs) (req : Request)
    (h : (validateEmail libs req).2 ≠ none) : (validationChain libs req.email).2 ≠ [] := by
  intro hnil
  apply h
  unfold validateEmail
  simp [hnil]

theorem signupRoute_invalid (libs : Libs) (cfg : Config) (fx : Oracle) (req : Request)
    (st : ServerState) (t : RateTable) (hpass : rateLimiter cfg fx.now req st.limiter = (t, none))
    (hbad : (validateEmail libs req).2 ≠ none) :
    signupRoute libs cfg fx req st =
      (⟨t, st.db⟩, ⟨st.db, invalidEmail, [.validate],
        [⟨"warn", utf16 "Validation failed for email: " ++ libs.normalizeEmail req.email, none⟩]⟩) := by
  have hv := validateEmail_rejects libs req (validationChain_of_rejects libs req hbad)
  simp [signupRoute, hpass, hv]

theorem signupRoute_blocked (libs : Libs) (cfg : Config) (fx : Oracle) (req : Request)
    (st : ServerState) (t : RateTable) (resp : Response) (line : LogLine)
    (hblock : rateLimiter cfg fx.now req st.limiter = (t, some (resp, line))) :
    signupRoute libs cfg fx req st = (⟨t, st.db⟩, ⟨st.db, resp, [], [line]⟩) := by
  simp [signupRoute, hblock]

theorem serve_cons_invalid_fresh (libs : Libs) (cfg : Config) (fx : Oracle) (req : Request)
    (ip : Option JSString) (t : RateTable) (db : Store) (rest : List (Oracle × Request))
    (hip : req.ip = ip) (hmax : 1 ≤ cfg.max)
    (h0 : ∀ e, t ip = some e → e.windowStart + cfg.windowMs ≤ fx.now)
    (hbad : (validateEmail libs req).2 ≠ none) :
    serve libs cfg ((fx, req) :: rest) ⟨t, db⟩ =
      ⟨db, invalidEmail, [.validate],
        [⟨"warn", utf16 "Validation failed for email: " ++ libs.normalizeEmail req.email, none⟩]⟩ ::
        serve libs cfg rest ⟨Function.update t ip (some ⟨1, fx.now⟩), db⟩ := by
  subst hip
  have hl := rateLimiter_fresh cfg fx.now req t hmax h0
  simp only [serve, signupRoute_invalid libs cfg fx req ⟨t, db⟩ _ hl hbad]

theorem serve_cons_invalid_counted (libs : Libs) (cfg : Config) (fx : Oracle) (req : Request)
    (ip : Option JSString) (t : RateTable) (db : Store) (rest : List (Oracle × Request))
    (c s : Nat) (hip : req.ip = ip) (hw : fx.now < s + cfg.windowMs) (hc : c + 1 ≤ cfg.max)
    (hbad : (validateEmail libs req).2 ≠ none) :
    serve libs cfg ((fx, req) :: rest) ⟨Function.update t ip (some ⟨c, s⟩), db⟩ =
      ⟨db, invalidEmail, [.validate],
        [⟨"warn", utf16 "Validation failed for email: " ++ libs.normalizeEmail req.email, none⟩]⟩ ::
        serve libs cfg rest
          ⟨Function.update (Function.update t ip (some ⟨c, s⟩)) ip (some ⟨c + 1, s⟩), db⟩ := by
  subst hip
  have hl := rateLimiter_in_window cfg fx.now req (Function.update t req.ip (some ⟨c, s⟩)) ⟨c, s⟩
    (Function.update_same _ _ _) hw
  have hnot : ¬ c + 1 > cfg.max := by omega
  simp only [hnot, if_false] at hl
  have hr := signupRoute_invalid libs cfg fx req
    ⟨Function.update t req.ip (some ⟨c, s⟩), db⟩ _ hl hbad
  simp only [serve]
  rw [hr]

theorem serve_cons_blocked (libs : Libs) (cfg : Config) (fx : Oracle) (req : Request)
    (ip : Option JSString) (t : RateTable) (db : Store) (rest : List (Oracle × Request))
    (c s : Nat) (hip : req.ip = ip) (hw : fx.now < s + cfg.windowMs) (hc : cfg.max < c + 1) :
    serve libs cfg ((fx, req) :: rest) ⟨Function.update t ip (some ⟨c, s⟩), db⟩ =
      ⟨db, tooManyRequests, [],
        [⟨"warn", utf16 "Rate limit exceeded for IP: " ++ jsToString req.ip, none⟩]⟩ ::
        serve libs cfg rest
          ⟨Function.update (Function.update t ip (some ⟨c, s⟩)) ip (some ⟨c + 1, s⟩), db⟩ := by
  subst hip
  have hl := rateLimiter_in_window cfg fx.now req (Function.update t req.ip (some ⟨c, s⟩)) ⟨c, s⟩
    (Function.update_same _ _ _) hw
  have hover : c + 1 > cfg.max := hc
  simp only [hover, if_true] at hl
  have hr := signupRoute_blocked libs cfg fx req
    ⟨Function.update t req.ip (some ⟨c, s⟩), db⟩ _ _ _ hl
  simp only [serve]
  rw [hr]

/-- C27: with the default settings and no running window for the client, five
requests from one IP that the validator refuses are each answered 400, and a
sixth request from that IP inside the window opened by the first is answered
429 without any operation, whatever its email; the collection is unchanged. -/
theorem invalid_requests_use_budget (libs : Libs) (st : ServerState)
    (f1 f2 f3 f4 f5 f6 : Oracle) (r1 r2 r3 r4 r5 r6 : Request) (ip : Option JSString)
    (hip : r1.ip = ip ∧ r2.ip = ip ∧ r3.ip = ip ∧ r4.ip = ip ∧ r5.ip = ip ∧ r6.ip = ip)
    (h0 : ∀ e, st.limiter ip = some e → e.windowStart + 900000 ≤ f1.now)
    (hwin : f2.now < f1.now + 900000 ∧ f3.now < f1.now + 900000 ∧ f4.now < f1.now + 900000 ∧
      f5.now < f1.now + 900000 ∧ f6.now < f1.now + 900000)
    (hbad : (validateEmail libs r1).2 ≠ none ∧ (validateEmail libs r2).2 ≠ none ∧
      (validateEmail libs r3).2 ≠ none ∧ (validateEmail libs r4).2 ≠ none ∧
      (validateEmail libs r5).2 ≠ none) :
    (serve libs defaultConfig [(f1, r1), (f2, r2), (f3, r3), (f4, r4), (f5, r5), (f6, r6)] st).map
        (fun r => (r.response.status, r.ops, r.db)) =
      [(400, [.validate], st.db), (400, [.validate], st.db), (400, [.validate], st.db),
        (400, [.validate], st.db), (400, [.validate], st.db), (429, [], st.db)] := by
  obtain ⟨i1, i2, i3, i4, i5, i6⟩ := hip
  obtain ⟨w2, w3, w4, w5, w6⟩ := hwin
  obtain ⟨b1, b2, b3, b4, b5⟩ := hbad
  obtain ⟨t, db⟩ := st
  rw [serve_cons_invalid_fresh libs defaultConfig f1 r1 ip t db _ i1 (by decide) h0 b1,
    serve_cons_invalid_counted libs defaultConfig f2 r2 ip _ db _ 1 f1.now i2 w2 (by decide) b2,
    serve_cons_invalid_counted libs defaultConfig f3 r3 ip _ db _ 2 f1.now i3 w3 (by decide) b3,
    serve_cons_invalid_counted libs defaultConfig f4 r4 ip _ db _ 3 f1.now i4 w4 (by decide) b4,
    serve_cons_invalid_counted libs defaultConfig f5 r5 ip _ db _ 4 f1.now i5 w5 (by decide) b5,
    serve_cons_blocked libs defaultConfig f6 r6 ip _ db _ 5 f1.now i6 w6 (by decide)]
  simp [serve, invalidEmail, tooManyRequests]

/-- C27 for five requests with `not-an-email` and a sixth with the new and valid
`alice@example.com`, at the times 0 to 5. -/
theorem invalid_requests_use_budget_witness :
    (validateEmail plainLibs (plainRequest "not-an-email")).2 ≠ none ∧
    (validateEmail plainLibs (plainRequest "alice@example.com")).2 = none ∧
    (serve plainLibs defaultConfig
        [(calm 0, plainRequest "not-an-email"), (calm 1, plainRequest "not-an-email"),
          (calm 2, plainRequest "not-an-email"), (calm 3, plainRequest "not-an-email"),
          (calm 4, plainRequest "not-an-email"), (calm 5, plainRequest "alice@example.com")]
        ⟨fun _ => none, []⟩).map (fun r => (r.response.status, r.ops, r.db)) =
      [(400, [.validate], []), (400, [.validate], []), (400, [.validate], []),
        (400, [.validate], []), (400, [.validate], []), (429, [], [])] :=
  ⟨by decide, by decide,
    invalid_requests_use_budget plainLibs ⟨fun _ => none, []⟩
      (calm 0) (calm 1) (calm 2) (calm 3) (calm 4) (calm 5)
      (plainRequest "not-an-email") (plainRequest "not-an-email") (plainRequest "not-an-email")
      (plainRequest "not-an-email") (plainRequest "not-an-email")
      (plainRequest "alice@example.com") (some (utf16 "203.0.113.7"))
      ⟨rfl, rfl, rfl, rfl, rfl, rfl⟩ (by intro e he; cases he)
      ⟨by decide, by decide, by decide, by decide, by decide⟩
      ⟨by decide, by decide, by decide, by decide, by decide⟩⟩

/-! ## The image trim -/

theorem BoxInv.congr {w h : Nat} {data : Nat → Nat} {s1 s2 : Nat → Nat → Prop} {b : Box}
    (hb : BoxInv w h data s1 b) (hs : ∀ x y, s1 x y ↔ s2 x y) : BoxInv w h data s2 b := by
  have : s1 = s2 := by
    funext x y
    exact propext (hs x y)
  rw [← this]
  exact hb

theorem scanPixel_inv (w h : Nat) (data : Nat → Nat) (seen : Nat → Nat → Prop) (b : Box)
    (x y : Nat) (hx : x < w) (hy : y < h) (hb : BoxInv w h data seen b) :
    BoxInv w h data (fun x1 y1 => seen x1 y1 ∨ (x1 = x ∧ y1 = y)) (scanPixel w data y b x) := by
  obtain ⟨hnot, hfound⟩ := hb
  by_cases ha : alpha w data x y = 0
  · have hsame : scanPixel w data y b x = b := by
      have : data ((y * w + x) * 4 + 3) = 0 := ha
      simp [scanPixel, this]
    rw [hsame]
    refine ⟨fun hf => ⟨(hnot hf).1, ?_⟩, fun hf => ?_⟩
    · rintro x1 y1 (hs | ⟨rfl, rfl⟩)
      · exact (hnot hf).2 x1 y1 hs
      · exact ha
    · obtain ⟨hall, ⟨y1, h1, h1a⟩, ⟨y2, h2, h2a⟩, ⟨x3, h3, h3a⟩, ⟨x4, h4, h4a⟩⟩ := hfound hf
      refine ⟨?_, ⟨y1, Or.inl h1, h1a⟩, ⟨y2, Or.inl h2, h2a⟩, ⟨x3, Or.inl h3, h3a⟩,
        ⟨x4, Or.inl h4, h4a⟩⟩
      rintro x1 y1 (hs | ⟨rfl, rfl⟩) hne
      · exact hall x1 y1 hs hne
      · exact absurd ha hne
  · have hd : data ((y * w + x) * 4 + 3) ≠ 0 := ha
    have hnew : scanPixel w data y b x =
        { found := true
          minX := if x < b.minX then x else b.minX
          maxX := if x > b.maxX then x else b.maxX
          minY := if y < b.minY then y else b.minY
          maxY := if y > b.maxY then y else b.maxY } := by
      simp [scanPixel, hd]
    rw [hnew]
    refine ⟨fun hf => (by cases hf), fun _ => ?_⟩
    cases hbf : b.found with
    | false =>
      obtain ⟨hinit, htransparent⟩ := hnot hbf
      have e1 : b.minX = w := by rw [hinit]
      have e2 : b.minY = h := by rw [hinit]
      have e3 : b.maxX = 0 := by rw [hinit]
      have e4 : b.maxY = 0 := by rw [hinit]
      have m1 : (if x < b.minX then x else b.minX) = x := by rw [e1, if_pos hx]
      have m2 : (if y < b.minY then y else b.minY) = y := by rw [e2, if_pos hy]
      have m3 : (if x > b.maxX then x else b.maxX) = x := by
        rw [e3]; split <;> omega
      have m4 : (if y > b.maxY then y else b.maxY) = y := by
        rw [e4]; split <;> omega
      simp only [m1, m2, m3, m4]
      refine ⟨?_, ⟨y, by simp, ha⟩, ⟨y, by simp, ha⟩, ⟨x, by simp, ha⟩, ⟨x, by simp, ha⟩⟩
      rintro x1 y1 (hs | ⟨rfl, rfl⟩) hne
      · exact absurd (htransparent x1 y1 hs) hne
      · exact ⟨le_refl _, le_refl _, le_refl _, le_refl _⟩
    | true =>
      obtain ⟨hall, ⟨y1, h1, h1a⟩, ⟨y2, h2, h2a⟩, ⟨x3, h3, h3a⟩, ⟨x4, h4, h4a⟩⟩ := hfound hbf
      refine ⟨?_, ?_, ?_, ?_, ?_⟩
      · rintro x1 y1 (hs | ⟨rfl, rfl⟩) hne
        · obtain ⟨a1, a2, a3, a4⟩ := hall x1 y1 hs hne
          refine ⟨?_, ?_, ?_, ?_⟩ <;> dsimp only <;> split <;> omega
        · refine ⟨?_, ?_, ?_, ?_⟩ <;> dsimp only <;> split <;> omega
      · dsimp only
        split
        · exact ⟨y, Or.inr ⟨rfl, rfl⟩, ha⟩
        · exact ⟨y1, Or.inl h1, h1a⟩
      · dsimp only
        split
        · exact ⟨y, Or.inr ⟨rfl, rfl⟩, ha⟩
        · exact ⟨y2, Or.inl h2, h2a⟩
      · dsimp only
        split
        · exact ⟨x, Or.inr ⟨rfl, rfl⟩, ha⟩
        · exact ⟨x3, Or.inl h3, h3a⟩
      · dsimp only
        split
        · exact ⟨x, Or.inr ⟨rfl, rfl⟩, ha⟩
        · exact ⟨x4, Or.inl h4, h4a⟩

theorem scanRow_prefix_inv (w h : Nat) (data : Nat → Nat) (y : Nat) (hy : y < h) :
    ∀ (xs : List Nat) (seen : Nat → Nat → Prop) (b : Box), (∀ x ∈ xs, x < w) →
      BoxInv w h data seen b →
      BoxInv w h data (fun x1 y1 => seen x1 y1 ∨ (x1 ∈ xs ∧ y1 = y))
        (xs.foldl (scanPixel w data y) b) := by
  intro xs
  induction xs with
  | nil =>
    intro seen b _ hb
    exact hb.congr (fun x1 y1 => by simp)
  | cons x xs ih =>
    intro seen b hxs hb
    have hstep := scanPixel_inv w h data seen b x y (hxs x (List.mem_cons_self _ _)) hy hb
    have := ih _ _ (fun x1 hx1 => hxs x1 (List.mem_cons_of_mem _ hx1)) hstep
    refine this.congr (fun x1 y1 => ?_)
    simp only [List.mem_cons]
    tauto

theorem scanRow_inv (w h : Nat) (data : Nat → Nat) (seen : Nat → Nat → Prop) (b : Box) (y : Nat)
    (hy : y < h) (hb : BoxInv w h data seen b) :
    BoxInv w h data (fun x1 y1 => seen x1 y1 ∨ (x1 < w ∧ y1 = y)) (scanRow w data b y) := by
  have := scanRow_prefix_inv w h data y hy (List.range w) seen b
    (fun x hx => List.mem_range.mp hx) hb
  exact this.congr (fun x1 y1 => by simp [List.mem_range])

theorem scanRows_inv (w h : Nat) (data : Nat → Nat) :
    ∀ (ys : List Nat) (seen : Nat → Nat → Prop) (b : Box), (∀ y ∈ ys, y < h) →
      BoxInv w h data seen b →
      BoxInv w h data (fun x1 y1 => seen x1 y1 ∨ (x1 < w ∧ y1 ∈ ys))
        (ys.foldl (scanRow w data) b) := by
  intro ys
  induction ys with
  | nil =>
    intro seen b _ hb
    exact hb.congr (fun x1 y1 => by simp)
  | cons y ys ih =>
    intro seen b hys hb
    have hstep := scanRow_inv w h data seen b y (hys y (List.mem_cons_self _ _)) hb
    have := ih _ _ (fun y1 hy1 => hys y1 (List.mem_cons_of_mem _ hy1)) hstep
    refine this.congr (fun x1 y1 => ?_)
    simp only [List.mem_cons]
    tauto

theorem scan_inv (w h : Nat) (data : Nat → Nat) :
    BoxInv w h data (fun x y => x < w ∧ y < h) (scan w h data) := by
  have hinit : BoxInv w h data (fun _ _ => False) ⟨w, h, 0, 0, false⟩ :=
    ⟨fun _ => ⟨rfl, fun _ _ hf => hf.elim⟩, fun hf => (by cases hf)⟩
  have := scanRows_inv w h data (List.range h) _ _ (fun y hy => List.mem_range.mp hy) hinit
  exact this.congr (fun x1 y1 => by simp [List.mem_range])

/-- An image with no pixels: `onload` throws and sets no source. -/
theorem trimImage_empty (w h : Nat) (data : Nat → Nat) (hz : w = 0 ∨ h = 0) :
    trimImage w h data = .threw := by
  simp [trimImage, hz]

/-- C29: on an image of positive width and height, when some pixel has a
non-zero alpha the scan finds it and the crop starts at `(minX, minY)` with size
`maxX - minX + 1` by `maxY - minY + 1`, where every pixel with non-zero alpha
lies in the columns `minX..maxX` and the rows `minY..maxY`, each of the four
bounds is the coordinate of a pixel with non-zero alpha, and the size is at
least 1 and at most `w` by `h`; when every pixel is transparent the original
source is kept. -/
theorem trim_is_tight_box (w h : Nat) (data : Nat → Nat) (hw : 0 < w) (hh : 0 < h) :
    ((∃ x y, x < w ∧ y < h ∧ alpha w data x y ≠ 0) →
      ∃ minX minY maxX maxY,
        scan w h data = ⟨minX, minY, maxX, maxY, true⟩ ∧
        trimImage w h data = .crop minX minY (maxX - minX + 1) (maxY - minY + 1) ∧
        (∀ x y, x < w → y < h → alpha w data x y ≠ 0 →
          minX ≤ x ∧ x ≤ maxX ∧ minY ≤ y ∧ y ≤ maxY) ∧
        (∃ y, y < h ∧ minX < w ∧ alpha w data minX y ≠ 0) ∧
        (∃ y, y < h ∧ maxX < w ∧ alpha w data maxX y ≠ 0) ∧
        (∃ x, x < w ∧ minY < h ∧ alpha w data x minY ≠ 0) ∧
        (∃ x, x < w ∧ maxY < h ∧ alpha w data x maxY ≠ 0) ∧
        1 ≤ maxX - minX + 1 ∧ maxX - minX + 1 ≤ w ∧
        1 ≤ maxY - minY + 1 ∧ maxY - minY + 1 ≤ h) ∧
    ((∀ x y, x < w → y < h → alpha w data x y = 0) → trimImage w h data = .original) := by
  have hinv := scan_inv w h data
  obtain ⟨hnot, hfound⟩ := hinv
  have hsize : ¬ (w = 0 ∨ h = 0) := by omega
  constructor
  · rintro ⟨x0, y0, hx0, hy0, ha0⟩
    have hf : (scan w h data).found = true := by
      cases hb : (scan w h data).found with
      | true => rfl
      | false => exact absurd ((hnot hb).2 x0 y0 ⟨hx0, hy0⟩) ha0
    obtain ⟨hall, ⟨y1, ⟨h1x, h1y⟩, h1a⟩, ⟨y2, ⟨h2x, h2y⟩, h2a⟩, ⟨x3, ⟨h3x, h3y⟩, h3a⟩,
      ⟨x4, ⟨h4x, h4y⟩, h4a⟩⟩ := hfound hf
    have b1 := hall _ _ ⟨h2x, h2y⟩ h2a
    have b2 := hall _ _ ⟨h4x, h4y⟩ h4a
    refine ⟨(scan w h data).minX, (scan w h data).minY, (scan w h data).maxX,
      (scan w h data).maxY, ?_, ?_, fun x y hx hy ha => hall x y ⟨hx, hy⟩ ha,
      ⟨y1, h1y, h1x, h1a⟩, ⟨y2, h2y, h2x, h2a⟩, ⟨x3, h3x, h3y, h3a⟩, ⟨x4, h4x, h4y, h4a⟩,
      by omega, by omega, by omega, by omega⟩
    · rw [← hf]
    · simp [trimImage, hf, hsize]
  · intro hall
    have hf : (scan w h data).found = false := by
      cases hb : (scan w h data).found with
      | false => rfl
      | true =>
        obtain ⟨_, ⟨y1, ⟨h1x, h1y⟩, h1a⟩, _⟩ := hfound hb
        exact absurd (hall _ _ h1x h1y) h1a
    simp [trimImage, hf, hsize]

/-- C29 on an image of 4 by 3 pixels whose non-transparent pixels are `(1, 1)`
and `(2, 2)`, and on a transparent one. -/
theorem trim_is_tight_box_witness :
    0 < 4 ∧ 0 < 3 ∧
    trimImage 4 3 (fun i => if i = (1 * 4 + 1) * 4 + 3 ∨ i = (2 * 4 + 2) * 4 + 3 then 255 else 0) =
      .crop 1 1 2 2 ∧
    trimImage 4 3 (fun _ => 0) = .original :=
  ⟨by decide, by decide, by decide,
    (trim_is_tight_box 4 3 (fun _ => 0) (by decide) (by decide)).2 (fun _ _ _ _ => rfl)⟩

/-! ## The signup form -/

/-- C30: `handleEmailSubmit` sends nothing when the form is submitted, when a
submission is in flight, or when the email is empty after trimming; with an
email empty after trimming it sets the error `Please enter your email`; with a
non-empty one it leaves the state alone when the form is submitted or in
flight, and otherwise sends one POST to the signup address with the email as
entered, the error then being empty or the text for the reply. -/
theorem submit_sends_once (apiUrl : JSString) (s : FormState) (reply : Reply) :
    ((s.isSubmitted = true ∨ s.isSubmitting = true ∨ trim s.emailValue = []) →
      (handleEmailSubmit apiUrl s reply).2 = []) ∧
    (trim s.emailValue = [] →
      (handleEmailSubmit apiUrl s reply).1 =
        { s with submissionError := utf16 "Please enter your email" }) ∧
    (trim s.emailValue ≠ [] → (s.isSubmitted = true ∨ s.isSubmitting = true) →
      (handleEmailSubmit apiUrl s reply).1 = s) ∧
    (trim s.emailValue ≠ [] → s.isSubmitted = false → s.isSubmitting = false →
      (handleEmailSubmit apiUrl s reply).2 =
        [⟨apiUrl ++ utf16 "/api/early-access/signup", s.emailValue⟩] ∧
      ((handleEmailSubmit apiUrl s reply).1.submissionError = [] ∨
        (∃ ok success message, reply = .answered ok success message ∧
          (handleEmailSubmit apiUrl s reply).1.submissionError =
            jsToString (jsOr message (some (utf16 "Something went wrong. Please try again.")))) ∨
        (reply = .failed ∧ (handleEmailSubmit apiUrl s reply).1.submissionError =
          utf16 "Network error. Please check your connection and try again."))) := by
  have hempty : ∀ l : JSString, l.isEmpty = true ↔ l = [] := fun l => by cases l <;> simp
  refine ⟨?_, ?_, ?_, ?_⟩
  · intro h
    unfold handleEmailSubmit
    have hcond : (s.isSubmitted || (trim s.emailValue).isEmpty || s.isSubmitting) = true := by
      rcases h with h | h | h
      · simp [h]
      · simp [h]
      · simp [h]
    rw [if_pos hcond]
    split <;> rfl
  · intro h
    unfold handleEmailSubmit
    simp [h]
  · intro hne h
    unfold handleEmailSubmit
    have hcond : (s.isSubmitted || (trim s.emailValue).isEmpty || s.isSubmitting) = true := by
      rcases h with h | h
      · simp [h]
      · simp [h]
    have hno : ¬ (trim s.emailValue).isEmpty = true := fun hc => hne ((hempty _).mp hc)
    rw [if_pos hcond, if_neg hno]
  · intro hne h1 h2
    have hno : (trim s.emailValue).isEmpty = false := by
      cases ht : trim s.emailValue with
      | nil => exact absurd ht hne
      | cons _ _ => rfl
    unfold handleEmailSubmit
    simp only [h1, h2, hno, Bool.or_self, Bool.false_eq_true, if_false]
    cases reply with
    | failed => exact ⟨rfl, Or.inr (Or.inr ⟨rfl, rfl⟩)⟩
    | answered ok success message =>
      cases ok <;> cases success
      · exact ⟨rfl, Or.inr (Or.inl ⟨_, _, _, rfl, rfl⟩)⟩
      · exact ⟨rfl, Or.inr (Or.inl ⟨_, _, _, rfl, rfl⟩)⟩
      · exact ⟨rfl, Or.inr (Or.inl ⟨_, _, _, rfl, rfl⟩)⟩
      · exact ⟨rfl, Or.inl rfl⟩

/-- C30 on an empty form, on a form in flight, and on a fresh form with
`alice@example.com`. -/
theorem submit_sends_once_witness :
    handleEmailSubmit (utf16 "http://localhost:5000") ⟨false, false, utf16 "  ", [], [], false⟩
        .failed =
      (⟨false, false, utf16 "  ", utf16 "Please enter your email", [], false⟩, []) ∧
    (handleEmailSubmit (utf16 "http://localhost:5000")
        ⟨false, true, utf16 "alice@example.com", [], [], false⟩ .failed).2 = [] ∧
    (handleEmailSubmit (utf16 "http://localhost:5000")
        ⟨false, false, utf16 "alice@example.com", [], [], false⟩
        (.answered true true none)).2 =
      [⟨utf16 "http://localhost:5000/api/early-access/signup", utf16 "alice@example.com"⟩] :=
  ⟨by decide,
    (submit_sends_once (utf16 "http://localhost:5000")
      ⟨false, true, utf16 "alice@example.com", [], [], false⟩ .failed).1 (Or.inr (Or.inl rfl)),
    by decide⟩

end Vibecheck
